import Mathlib

/-! Verification of the multiplatform deep-researcher orchestrator.

Shallow embedding of the pipeline orchestrator and session registry:
  * `src/backend/services/session.py`  (SessionManager)
  * `src/backend/services/flow.py`     (DeepResearchFlow: collect_urls,
    dispatch_to_specialists and its inner _process_platform)
  * `src/backend/services/research.py` (run_research)

Python dictionaries are modelled as insertion-ordered association lists,
Python exceptions as an explicit `Except`-style result threaded through a
state-and-event monad `PyM`, and the external agent executor (CrewAI + MCP)
as an oracle parameter giving each call's outcome.
-/

set_option autoImplicit false

namespace MDR

/-- A Python exception, reduced to its class name and message. -/
structure PyErr where
  name : String
  msg : String
deriving DecidableEq, Repr

/-- Exception `KeyError(k)` as raised by an unguarded dict index. -/
def keyError (k : String) : PyErr := ⟨"KeyError", k⟩

/-- Per-slot agent status values used in `session.py` ("waiting" /
"running" / "done" / "error"). -/
inductive AgentState where
  | waiting
  | running
  | done
  | error
deriving DecidableEq, Repr

/-- Session status values ("pending" / "running" / "completed" / "error"). -/
inductive SessionStatus where
  | pending
  | running
  | completed
  | error
deriving DecidableEq, Repr

/-- One agent slot record, `\x7b"status": ..., "platform": ..., "message"?: ...\x7d`.
The `message` key is absent at creation, modelled as `none`. -/
structure AgentStatus where
  status : AgentState
  platform : String
  message : Option String := none
deriving DecidableEq, Repr

/-- One session record from `SessionManager.create_session`. -/
structure Session where
  query : String
  status : SessionStatus
  agents : List (String × AgentStatus)
  result : Option String
deriving DecidableEq, Repr

/-- The `SessionManager`'s mutable state: the `sessions` dict and the
`websockets` dict.  A channel is modelled by whether its `send_json`
succeeds (`true`) or raises (`false`). -/
structure SMState where
  sessions : List (String × Session)
  websockets : List (String × Bool)
deriving DecidableEq, Repr

/-- Events handed to `SessionManager.broadcast`. -/
inductive Event where
  | agentUpdate (agentId : String) (status : AgentState) (message : Option String)
  | flowStarted (query : String)
  | researchComplete (result : String)
  | errorEvent (message : String)
deriving DecidableEq, Repr

/-! Section: ordered association lists standing in for Python dicts -/

/-- Dict lookup, as in `d.get(k)` and `k in d`. -/
def lookup {α : Type} (k : String) : List (String × α) → Option α
  | [] => none
  | (k', v) :: rest => if k' = k then some v else lookup k rest

/-- Dict write to an existing key (`d[k] = v`); insertion order is
preserved, matching CPython.  Unchanged if the key is absent. -/
def setKey {α : Type} (k : String) (v : α) : List (String × α) → List (String × α)
  | [] => []
  | (k', v') :: rest => if k' = k then (k', v) :: rest else (k', v') :: setKey k v rest

/-- Dict deletion (`del d[k]`). -/
def eraseKey {α : Type} (k : String) : List (String × α) → List (String × α)
  | [] => []
  | (k', v') :: rest => if k' = k then rest else (k', v') :: eraseKey k rest

/-- Dict assignment `d[k] = v`: replaces in place when the key exists,
appends at the end when it is new (CPython insertion order). -/
def dictSet {α : Type} (k : String) (v : α) (d : List (String × α)) : List (String × α) :=
  if (lookup k d).isSome then setKey k v d else d ++ [(k, v)]

/-! Section: the Python-effect monad

A computation reads and writes the `SessionManager` state, records the
events passed to `broadcast` (`calls`) and the events actually delivered
over a channel (`sent`), and either returns a value or propagates an
exception.  State and recorded events survive an exception, as they do in
Python. -/

/-- Result of running one embedded Python computation. -/
structure PyOut (α : Type) where
  res : Except PyErr α
  st : SMState
  calls : List Event
  sent : List Event
deriving Repr

/-- The effect monad: state + event log + exceptions. -/
def PyM (α : Type) : Type := SMState → PyOut α

namespace PyM

/-- Return a value without effects. -/
def pure {α : Type} (a : α) : PyM α := fun st => ⟨.ok a, st, [], []⟩

/-- Sequencing; an exception in `m` skips `f` but keeps `m`'s effects. -/
def bind {α β : Type} (m : PyM α) (f : α → PyM β) : PyM β := fun st =>
  let r := m st
  match r.res with
  | .ok a =>
      let r2 := f a r.st
      ⟨r2.res, r2.st, r.calls ++ r2.calls, r.sent ++ r2.sent⟩
  | .error e => ⟨.error e, r.st, r.calls, r.sent⟩

/-- Statement `raise e`. -/
def raise {α : Type} (e : PyErr) : PyM α := fun st => ⟨.error e, st, [], []⟩

/-- Read the current manager state. -/
def getState : PyM SMState := fun st => ⟨.ok st, st, [], []⟩

/-- Replace the manager state. -/
def setState (st' : SMState) : PyM Unit := fun st =>
  let _ := st
  ⟨.ok (), st', [], []⟩

/-- Statement `try: body except Exception as e: handler e` — the handler runs from
the state at the raise point; effects of both parts are kept. -/
def tryCatch {α : Type} (body : PyM α) (handler : PyErr → PyM α) : PyM α := fun st =>
  let r := body st
  match r.res with
  | .ok _ => r
  | .error e =>
      let r2 := handler e r.st
      ⟨r2.res, r2.st, r.calls ++ r2.calls, r.sent ++ r2.sent⟩

/-- Record that `broadcast` was invoked with an event. -/
def recordCall (ev : Event) : PyM Unit := fun st => ⟨.ok (), st, [ev], []⟩

/-- Call `websocket.send_json(ev)`: delivers on a healthy channel, raises on a
broken one. -/
def wsSend (ch : Bool) (ev : Event) : PyM Unit := fun st =>
  if ch then ⟨.ok (), st, [], [ev]⟩
  else ⟨.error ⟨"WebSocketError", "send failed"⟩, st, [], []⟩

end PyM

/-! Section: `session.py` — SessionManager -/

/-- The fixed agent-slot map built by `create_session`. -/
def freshAgents : List (String × AgentStatus) :=
  [("search", ⟨.waiting, "search", none⟩),
   ("instagram", ⟨.waiting, "instagram", none⟩),
   ("linkedin", ⟨.waiting, "linkedin", none⟩),
   ("youtube", ⟨.waiting, "youtube", none⟩),
   ("x", ⟨.waiting, "x", none⟩),
   ("web", ⟨.waiting, "web", none⟩),
   ("synthesis", ⟨.waiting, "synthesis", none⟩)]

/-- The session record `create_session` stores for a query. -/
def freshSession (query : String) : Session :=
  { query := query, status := .pending, agents := freshAgents, result := none }

/-- Method `SessionManager.create_session`: stores a fresh session under a newly
generated id (the id is a parameter here; uuid4 collisions are ignored as
in the source). -/
def create_session (sid query : String) (st : SMState) : SMState :=
  { st with sessions := dictSet sid (freshSession query) st.sessions }

/-- Method `SessionManager.get_session`: `self.sessions.get(session_id)`.  Note
this hands back the stored record itself, not a defensive copy. -/
def get_session (st : SMState) (sid : String) : Option Session :=
  lookup sid st.sessions

/-- Python truthiness of the optional `message` argument (`if message:`). -/
def truthy : Option String → Bool
  | none => false
  | some s => !(s == "")

/-- Method `SessionManager.broadcast`: send to the attached channel if any; a
send failure is swallowed and the channel deleted. -/
def broadcast (sid : String) (ev : Event) : PyM Unit :=
  PyM.bind (PyM.recordCall ev) fun _ =>
  PyM.bind PyM.getState fun st =>
  match lookup sid st.websockets with
  | some ch =>
      PyM.tryCatch (PyM.wsSend ch ev) fun _ =>
        PyM.bind PyM.getState fun st2 =>
        if (lookup sid st2.websockets).isSome then
          PyM.setState { st2 with websockets := eraseKey sid st2.websockets }
        else
          PyM.pure ()
  | none => PyM.pure ()

/-- Method `SessionManager.update_agent_status`: guarded on the session id,
unguarded on the agent id (`self.sessions[sid]["agents"][aid]` raises
`KeyError` for an unknown slot); sets `status`, overwrites `message` only
when truthy, then broadcasts an `agent_update`. -/
def update_agent_status (sid aid : String) (status : AgentState)
    (message : Option String) : PyM Unit :=
  PyM.bind PyM.getState fun st =>
  match lookup sid st.sessions with
  | none => PyM.pure ()
  | some sess =>
      match lookup aid sess.agents with
      | none => PyM.raise (keyError aid)
      | some ag =>
          let ag' := { ag with status := status }
          let ag'' := if truthy message then { ag' with message := message } else ag'
          let sess' := { sess with agents := setKey aid ag'' sess.agents }
          PyM.bind (PyM.setState { st with sessions := setKey sid sess' st.sessions })
            fun _ => broadcast sid (.agentUpdate aid status message)

/-- Method `register_websocket`. -/
def register_websocket (sid : String) (ch : Bool) (st : SMState) : SMState :=
  { st with websockets := dictSet sid ch st.websockets }

/-- Method `unregister_websocket`. -/
def unregister_websocket (sid : String) (st : SMState) : SMState :=
  if (lookup sid st.websockets).isSome then
    { st with websockets := eraseKey sid st.websockets }
  else st

/-! Section: `core/schemas.py` — data model -/

/-- Schema `URLBuckets`: five per-platform URL lists, all defaulting to empty. -/
structure URLBuckets where
  instagram : List String := []
  linkedin : List String := []
  youtube : List String := []
  x : List String := []
  web : List String := []
deriving DecidableEq, Repr

/-- Method `URLBuckets.model_dump(mode="raw")`: the dict in field-declaration
order. -/
def URLBuckets.dump (b : URLBuckets) : List (String × List String) :=
  [("instagram", b.instagram), ("linkedin", b.linkedin),
   ("youtube", b.youtube), ("x", b.x), ("web", b.web)]

/-- Schema `SpecialistOutput`: extraction result for one platform.  `metadata` is
an open string map. -/
structure SpecialistOutput where
  platform : String
  url : String
  summary : String
  metadata : List (String × String) := []
deriving DecidableEq, Repr

/-! Section: `flow.py` — collect_urls (Discover stage)

The CrewAI/MCP side is opaque; a `DiscoverOutcome` oracle says how the
one `crew.kickoff()` call (and the code around it) behaves on this run. -/

/-- Shape of the raw value `crew.kickoff()` hands back, with the result
of any JSON re-parse attempt folded in. -/
inductive RawOut where
  | asBuckets (b : URLBuckets)
  | asString (parsed : Option URLBuckets)
  | asDict (parsed : Option URLBuckets)
  | otherShape
deriving DecidableEq, Repr

/-- The duck-typed coercion `collect_urls` performs on the kickoff result:
a genuine `URLBuckets` passes through; a string or dict is re-parsed,
falling back to the all-empty default on failure; anything else falls
back to the all-empty default. -/
def coerceOut : RawOut → URLBuckets
  | .asBuckets b => b
  | .asString (some b) => b
  | .asString none => {}
  | .asDict (some b) => b
  | .asDict none => {}
  | .otherShape => {}

/-- How one Discover run behaves: either an exception escapes to the
method-level `try` (missing MCP params, adapter failure, or a failure
after the inner `try`), or `crew.kickoff()` itself raises and is caught
by the inner `try`, or it returns a raw value. -/
inductive DiscoverOutcome where
  | outerRaise (e : PyErr)
  | kickoffRaise (e : PyErr)
  | kickoffOk (r : RawOut)
deriving DecidableEq, Repr

/-- What `collect_urls` returns into the flow state: the
`urls_buckets` dict and the optional `"error"` key. -/
structure CollectOut where
  urls_buckets : List (String × List String)
  errorKey : Option String
deriving DecidableEq, Repr

/-- Guarded call `if self.state.session_id: await session_manager.update_agent_status(...)`. -/
def maybeUpdate (sid : Option String) (aid : String) (status : AgentState)
    (message : Option String) : PyM Unit :=
  match sid with
  | some s => update_agent_status s aid status message
  | none => PyM.pure ()

/-- Method `DeepResearchFlow.collect_urls`: marks `search` running, then inside a
method-level `try` runs the search crew; an inner `try` converts a
kickoff failure into the empty `URLBuckets`; the `search` slot is marked
`done` *inside* the method-level `try`, so an outer exception returns the
empty buckets plus an `"error"` key without touching the slot again. -/
def collect_urls (oracle : DiscoverOutcome) (sid : Option String) : PyM CollectOut :=
  PyM.bind (maybeUpdate sid "search" .running (some "Searching for relevant URLs...")) fun _ =>
  PyM.tryCatch
    (match oracle with
     | .outerRaise e => PyM.raise e
     | .kickoffRaise _ =>
         PyM.bind (maybeUpdate sid "search" .done (some "URLs collected.")) fun _ =>
         PyM.pure ⟨URLBuckets.dump {}, none⟩
     | .kickoffOk r =>
         PyM.bind (maybeUpdate sid "search" .done (some "URLs collected.")) fun _ =>
         PyM.pure ⟨(coerceOut r).dump, none⟩)
    (fun e => PyM.pure ⟨URLBuckets.dump {}, some e.msg⟩)

/-! Section: `flow.py` — dispatch_to_specialists (Extract stage) -/

/-- How one specialist branch behaves, as decided by the external
executor: success with a `SpecialistOutput`; a raise before the slot is
marked running (`get_server_params()` failing or returning `None`); or a
raise after it (adapter entry, tool lookup, or `kickoff_async`). -/
inductive BranchOutcome where
  | success (out : SpecialistOutput)
  | failEarly (e : PyErr)
  | failLate (e : PyErr)
deriving DecidableEq, Repr

/-- Inner coroutine `_process_platform`: an empty bucket returns `[]` untouched; otherwise
the slot is marked `running` (after the params check), the specialist crew
runs, and on success the slot is marked `done` and the single output is
returned.  The branch-level `except` logs and re-raises, so a failure
propagates to `asyncio.gather`. -/
def processPlatform (oracle : String → BranchOutcome) (sid : Option String)
    (platform : String) (urls : List String) : PyM (List SpecialistOutput) :=
  if urls = [] then PyM.pure []
  else
    match oracle platform with
    | .failEarly e => PyM.raise e
    | .failLate e =>
        PyM.bind (maybeUpdate sid platform .running
            (some ("Analyzing " ++ toString urls.length ++ " URLs...")))
          fun _ => PyM.raise e
    | .success out =>
        PyM.bind (maybeUpdate sid platform .running
            (some ("Analyzing " ++ toString urls.length ++ " URLs...")))
          fun _ =>
        PyM.bind (maybeUpdate sid platform .done (some "Analysis complete."))
          fun _ => PyM.pure [out]

/-- Call `asyncio.gather(*tasks, return_exceptions=True)`: every task runs to
completion and each one's outcome — value or exception — is captured at
the task's own index.  (Branches only touch disjoint agent slots, so
serialising them here only fixes the interleaving of their event logs.) -/
def gatherPy {α : Type} : List (PyM α) → PyM (List (Except PyErr α))
  | [] => PyM.pure []
  | t :: rest => fun st =>
      let r := t st
      let r2 := gatherPy rest r.st
      ⟨(match r2.res with
        | .ok l => .ok (r.res :: l)
        | .error e => .error e),
       r2.st, r.calls ++ r2.calls, r.sent ++ r2.sent⟩

/-- The sentinel `SpecialistOutput` substituted for a failed branch. -/
def sentinel (platform : String) (e : PyErr) : SpecialistOutput :=
  { platform := platform, url := "https://invalid.local",
    summary := "Error: " ++ e.name, metadata := [("detail", e.msg)] }

/-- The fan-in loop over `enumerate(results_raw)`: an exception at index
`i` appends the sentinel for `platforms[i]`, a value extends the results
with the branch's list. -/
def fanIn : List String → List (Except PyErr (List SpecialistOutput)) → List SpecialistOutput
  | p :: ps, .error e :: rs => sentinel p e :: fanIn ps rs
  | _ :: ps, .ok l :: rs => l ++ fanIn ps rs
  | _, _ => []

/-- Method `dispatch_to_specialists`: fan-out one `_process_platform` task per
entry of the parsed buckets dict (in dict iteration order), gather with
`return_exceptions=True`, then fan-in. -/
def dispatch_to_specialists (oracle : String → BranchOutcome) (sid : Option String)
    (buckets : List (String × List String)) : PyM (List SpecialistOutput) :=
  PyM.bind (gatherPy (buckets.map fun pb => processPlatform oracle sid pb.1 pb.2))
    fun rs => PyM.pure (fanIn (buckets.map Prod.fst) rs)

/-! Section: completion-order model for the Extract fan-in

`asyncio.gather` stores every branch's outcome at the branch's submission
index, whatever order the branches finish in.  We model a completion
schedule as the list of branch indices in finishing order and let the
event loop write each finished branch's outcome into the slot array at
its own index. -/

/-- The value-or-exception outcome of one branch, as a pure summary of
`processPlatform` for a fixed executor behaviour. -/
def branchResult (oracle : String → BranchOutcome) (platform : String)
    (urls : List String) : Except PyErr (List SpecialistOutput) :=
  if urls = [] then .ok []
  else
    match oracle platform with
    | .success out => .ok [out]
    | .failEarly e => .error e
    | .failLate e => .error e

/-- All branch outcomes in submission (dict-iteration) order. -/
def branchOutcomes (oracle : String → BranchOutcome)
    (buckets : List (String × List String)) : List (Except PyErr (List SpecialistOutput)) :=
  buckets.map fun pb => branchResult oracle pb.1 pb.2

/-- The event loop's slot array after branches finish in the order given
by `sched`: each finished branch writes its outcome at its own index. -/
def schedGather {α : Type} (outcomes : List α) (sched : List Nat) : List (Option α) :=
  sched.foldl
    (fun acc i =>
      match outcomes[i]? with
      | some v => acc.set i (some v)
      | none => acc)
    (List.replicate outcomes.length none)

/-- The fan-in result list produced when the branches complete in the
order `sched` (a permutation of the branch indices). -/
def dispatchResultsSched (oracle : String → BranchOutcome)
    (buckets : List (String × List String)) (sched : List Nat) : List SpecialistOutput :=
  fanIn (buckets.map Prod.fst)
    ((schedGather (branchOutcomes oracle buckets) sched).map fun o => o.getD (.ok []))

/-! Section: `research.py` — run_research -/

/-- Assignment `session["status"] = v` written through the object reference that
`get_session` handed back: a direct in-place write into the registry's
store, bypassing the registry API.  (If the id were no longer in the map
the write would mutate an unreachable object, leaving the registry
unchanged.) -/
def directSetStatus (sid : String) (v : SessionStatus) : PyM Unit :=
  PyM.bind PyM.getState fun st =>
  match lookup sid st.sessions with
  | some sess =>
      PyM.setState { st with sessions := setKey sid { sess with status := v } st.sessions }
  | none => PyM.pure ()

/-- Assignment `session["result"] = v` through the same direct reference. -/
def directSetResult (sid : String) (v : String) : PyM Unit :=
  PyM.bind PyM.getState fun st =>
  match lookup sid st.sessions with
  | some sess =>
      PyM.setState { st with sessions := setKey sid { sess with result := some v } st.sessions }
  | none => PyM.pure ()

/-- Assignment `session_manager.sessions[session_id]["status"] = "error"` in the
outermost handler: the unguarded index raises `KeyError` on a missing id. -/
def sessionsIndexSetStatus (sid : String) (v : SessionStatus) : PyM Unit :=
  PyM.bind PyM.getState fun st =>
  match lookup sid st.sessions with
  | some sess =>
      PyM.setState { st with sessions := setKey sid { sess with status := v } st.sessions }
  | none => PyM.raise (keyError sid)

/-- Read of `session["result"]` for the `research_complete` broadcast. -/
def sessionResult (st : SMState) (sid : String) : String :=
  match lookup sid st.sessions with
  | some sess => sess.result.getD ""
  | none => ""

/-- The Done-stage sweep: `for agent_id in [...]: await
session_manager.update_agent_status(session_id, agent_id, "done")`. -/
def agentSweep (sid : String) : List String → PyM Unit
  | [] => PyM.pure ()
  | aid :: rest =>
      PyM.bind (update_agent_status sid aid .done none) fun _ => agentSweep sid rest

/-- The seven slot names swept to `done` on success. -/
def sweepIds : List String :=
  ["search", "instagram", "linkedin", "youtube", "x", "web", "synthesis"]

/-- Lines 49-60 of `research.py` — the body run after a successful
`flow.kickoff_async()`: sweep every slot to `done`, store the result and
the `completed` status through the session reference, and broadcast
`research_complete` with the stored result. -/
def doneBranch (sid : String) (payload : Option String) : PyM Unit :=
  PyM.bind (agentSweep sid sweepIds) fun _ =>
  PyM.bind (directSetResult sid (payload.getD "No result returned")) fun _ =>
  PyM.bind (directSetStatus sid .completed) fun _ =>
  PyM.bind PyM.getState fun st2 =>
  broadcast sid (.researchComplete (sessionResult st2 sid))

/-- Lines 63-69 of `research.py` — the inner `except` handler: write the
`error` status through the session reference and broadcast an `error`
event. -/
def errorBranch (sid : String) (e : PyErr) : PyM Unit :=
  PyM.bind (directSetStatus sid .error) fun _ =>
  broadcast sid (.errorEvent e.msg)

/-- Function `run_research`: looks the session up (returning silently when
absent), sets its status to `running` *through the returned reference*,
marks `search` running, broadcasts `flow_started`, then runs the flow.
`flowOut` is the outcome of `await flow.kickoff_async()`, carrying
`result.get("result")`.  On success `doneBranch` runs; on a flow
exception the inner handler runs `errorBranch`; the outermost handler
writes status `error` through an unguarded map index. -/
def run_research (sid query : String) (flowOut : Except PyErr (Option String)) : PyM Unit :=
  PyM.tryCatch
    (PyM.bind PyM.getState fun st0 =>
     match lookup sid st0.sessions with
     | none => PyM.pure ()
     | some _ =>
         PyM.bind (directSetStatus sid .running) fun _ =>
         PyM.bind (update_agent_status sid "search" .running
             (some "Searching for relevant URLs...")) fun _ =>
         PyM.bind (broadcast sid (.flowStarted query)) fun _ =>
         PyM.tryCatch
           (match flowOut with
            | .ok payload => doneBranch sid payload
            | .error e => PyM.raise e)
           (fun e => errorBranch sid e))
    (fun _ => sessionsIndexSetStatus sid .error)

/-! Section: the registry API as an operation language (for the ownership
claim): every mutation the `SessionManager` itself offers. -/

/-- One call into the `SessionManager` API. -/
inductive RegOp where
  | createOp (sid query : String)
  | updateOp (sid aid : String) (status : AgentState) (message : Option String)
  | broadcastOp (sid : String) (ev : Event)
  | registerOp (sid : String) (ch : Bool)
  | unregisterOp (sid : String)

/-- The state after one registry API call (exceptions leave the state the
call produced up to the raise, as in Python). -/
def applyOp (st : SMState) : RegOp → SMState
  | .createOp sid q => create_session sid q st
  | .updateOp sid aid s m => (update_agent_status sid aid s m st).st
  | .broadcastOp sid ev => (broadcast sid ev st).st
  | .registerOp sid ch => register_websocket sid ch st
  | .unregisterOp sid => unregister_websocket sid st

/-- The state after a sequence of registry API calls. -/
def applyOps (st : SMState) (ops : List RegOp) : SMState := ops.foldl applyOp st

/-- State `b` is reachable from `a` using only the registry's own operations. -/
def RegReachable (a b : SMState) : Prop := ∃ ops : List RegOp, applyOps a ops = b

/-- The ownership discipline claimed by the spec: whatever `run_research`
does to the registry state could also have been done through the registry
API alone (i.e. the reference `get_session` returns gives no extra
mutating power). -/
def registryOwnsAllMutation : Prop :=
  ∀ (st : SMState) (sid query : String) (flowOut : Except PyErr (Option String)),
    RegReachable st (run_research sid query flowOut st).st

/-- Convenience read of one agent slot of one session. -/
def agentSlot (st : SMState) (sid aid : String) : Option AgentStatus :=
  match lookup sid st.sessions with
  | some sess => lookup aid sess.agents
  | none => none

/-- Convenience read of one session's status. -/
def sessionStatus (st : SMState) (sid : String) : Option SessionStatus :=
  (lookup sid st.sessions).map Session.status

/-! Section: association-list lemmas -/

theorem lookup_setKey_self {α : Type} (k : String) (v : α) (d : List (String × α)) :
    lookup k (setKey k v d) = if (lookup k d).isSome then some v else none := by
  induction d with
  | nil => simp [lookup, setKey]
  | cons hd tl ih =>
      obtain ⟨k', v'⟩ := hd
      by_cases h : k' = k
      · subst h
        simp [lookup, setKey]
      · simp [lookup, setKey, h, ih]

theorem lookup_setKey_ne {α : Type} (k k' : String) (v : α) (d : List (String × α))
    (h : k' ≠ k) : lookup k' (setKey k v d) = lookup k' d := by
  induction d with
  | nil => simp [setKey]
  | cons hd tl ih =>
      obtain ⟨k'', v''⟩ := hd
      by_cases h2 : k'' = k
      · subst h2
        have : k'' ≠ k' := fun hc => h (hc ▸ rfl)
        simp [lookup, setKey, this]
      · by_cases h3 : k'' = k'
        · subst h3
          simp [lookup, setKey, h2]
        · simp [lookup, setKey, h2, h3, ih]

theorem lookup_setKey_isSome {α : Type} (k k' : String) (v : α) (d : List (String × α)) :
    (lookup k' (setKey k v d)).isSome = (lookup k' d).isSome := by
  by_cases h : k' = k
  · subst h
    rw [lookup_setKey_self]
    by_cases h2 : (lookup k' d).isSome <;> simp [h2]
  · rw [lookup_setKey_ne _ _ _ _ h]

theorem lookup_append {α : Type} (k : String) (d1 d2 : List (String × α)) :
    lookup k (d1 ++ d2) =
      (match lookup k d1 with
       | some v => some v
       | none => lookup k d2) := by
  induction d1 with
  | nil => simp [lookup]
  | cons hd tl ih =>
      obtain ⟨k', v'⟩ := hd
      by_cases h : k' = k <;> simp [lookup, h, ih]

theorem lookup_dictSet_self {α : Type} (k : String) (v : α) (d : List (String × α)) :
    lookup k (dictSet k v d) = some v := by
  unfold dictSet
  by_cases h : (lookup k d).isSome
  · simp [h, lookup_setKey_self]
  · have h2 : lookup k d = none := by
      cases hl : lookup k d
      · rfl
      · rw [hl] at h
        simp at h
    simp [h, lookup_append, h2, lookup]

theorem lookup_dictSet_ne {α : Type} (k k' : String) (v : α) (d : List (String × α))
    (h : k' ≠ k) : lookup k' (dictSet k v d) = lookup k' d := by
  unfold dictSet
  by_cases hs : (lookup k d).isSome
  · simp [hs, lookup_setKey_ne _ _ _ _ h]
  · have : k ≠ k' := fun hc => h (hc ▸ rfl)
    simp [hs, lookup_append, lookup, this]
    cases lookup k' d <;> simp

/-! Section: behaviour of broadcast and update_agent_status -/

theorem broadcast_spec (sid : String) (ev : Event) (st : SMState) :
    (broadcast sid ev st).res = .ok () ∧
    (broadcast sid ev st).st.sessions = st.sessions ∧
    (broadcast sid ev st).calls = [ev] := by
  cases h : lookup sid st.websockets with
  | none =>
      simp [broadcast, PyM.bind, PyM.recordCall, PyM.getState, PyM.pure, h]
  | some ch =>
      cases ch <;>
        simp [broadcast, PyM.bind, PyM.recordCall, PyM.getState, PyM.pure, PyM.tryCatch,
          PyM.wsSend, PyM.setState, h]

theorem update_noop_of_unknown_session {st : SMState} {sid aid : String}
    {status : AgentState} {message : Option String}
    (h : lookup sid st.sessions = none) :
    update_agent_status sid aid status message st = ⟨.ok (), st, [], []⟩ := by
  simp [update_agent_status, PyM.bind, PyM.getState, PyM.pure, h]

theorem update_keyerror_of_unknown_slot {st : SMState} {sid aid : String}
    {status : AgentState} {message : Option String} {sess : Session}
    (hs : lookup sid st.sessions = some sess)
    (ha : lookup aid sess.agents = none) :
    update_agent_status sid aid status message st = ⟨.error (keyError aid), st, [], []⟩ := by
  simp [update_agent_status, PyM.bind, PyM.getState, PyM.raise, hs, ha]

/-- The agent record after `update_agent_status`'s two field writes. -/
def updatedAgent (ag : AgentStatus) (status : AgentState) (message : Option String) :
    AgentStatus :=
  if truthy message then { ag with status := status, message := message }
  else { ag with status := status }

/-- The session record after `update_agent_status` rewrites one slot. -/
def updatedSession (sess : Session) (aid : String) (status : AgentState)
    (message : Option String) (ag : AgentStatus) : Session :=
  { sess with agents := setKey aid (updatedAgent ag status message) sess.agents }

theorem update_spec_of_known (status : AgentState) (message : Option String)
    {st : SMState} {sid aid : String} {sess : Session} {ag : AgentStatus}
    (hs : lookup sid st.sessions = some sess)
    (ha : lookup aid sess.agents = some ag) :
    (update_agent_status sid aid status message st).res = .ok () ∧
    (update_agent_status sid aid status message st).st.sessions =
      setKey sid (updatedSession sess aid status message ag) st.sessions ∧
    (update_agent_status sid aid status message st).calls =
      [.agentUpdate aid status message] := by
  have hb := broadcast_spec sid (.agentUpdate aid status message)
  simp only [update_agent_status, PyM.bind, PyM.getState, PyM.setState, hs, ha]
  by_cases hm : truthy message = true <;>
    simp [hm, updatedSession, updatedAgent, (hb _).1, (hb _).2.1, (hb _).2.2]

theorem update_agentSlot_self {st : SMState} {sid aid : String}
    {status : AgentState} {message : Option String} {sess : Session} {ag : AgentStatus}
    (hs : lookup sid st.sessions = some sess)
    (ha : lookup aid sess.agents = some ag) :
    agentSlot (update_agent_status sid aid status message st).st sid aid =
      some (updatedAgent ag status message) := by
  have h := (update_spec_of_known status message hs ha).2.1
  unfold agentSlot
  rw [h, lookup_setKey_self, hs]
  simp [updatedSession, lookup_setKey_self, ha]

theorem update_agentSlot_other {st : SMState} {sid aid : String}
    {status : AgentState} {message : Option String} (sid' aid' : String)
    (hne : aid' ≠ aid) :
    agentSlot (update_agent_status sid aid status message st).st sid' aid' =
      agentSlot st sid' aid' := by
  cases hs : lookup sid st.sessions with
  | none => rw [update_noop_of_unknown_session hs]
  | some sess =>
      cases ha : lookup aid sess.agents with
      | none => rw [update_keyerror_of_unknown_slot hs ha]
      | some ag =>
          have h := (update_spec_of_known status message hs ha).2.1
          unfold agentSlot
          rw [h]
          by_cases h2 : sid' = sid
          · subst h2
            rw [lookup_setKey_self, hs]
            simp [updatedSession, lookup_setKey_ne _ _ _ _ hne, hs]
          · rw [lookup_setKey_ne _ _ _ _ h2]

theorem update_agentSlot_isSome {st : SMState} {sid aid : String}
    {status : AgentState} {message : Option String} (sid' aid' : String) :
    (agentSlot (update_agent_status sid aid status message st).st sid' aid').isSome =
      (agentSlot st sid' aid').isSome := by
  cases hs : lookup sid st.sessions with
  | none => rw [update_noop_of_unknown_session hs]
  | some sess =>
      cases ha : lookup aid sess.agents with
      | none => rw [update_keyerror_of_unknown_slot hs ha]
      | some ag =>
          have h := (update_spec_of_known status message hs ha).2.1
          unfold agentSlot
          rw [h]
          by_cases h2 : sid' = sid
          · subst h2
            rw [lookup_setKey_self, hs]
            simp [updatedSession, hs, lookup_setKey_isSome]
          · rw [lookup_setKey_ne _ _ _ _ h2]

theorem update_sessionStatus {st : SMState} {sid aid : String}
    {status : AgentState} {message : Option String} (sid' : String) :
    sessionStatus (update_agent_status sid aid status message st).st sid' =
      sessionStatus st sid' := by
  cases hs : lookup sid st.sessions with
  | none => rw [update_noop_of_unknown_session hs]
  | some sess =>
      cases ha : lookup aid sess.agents with
      | none => rw [update_keyerror_of_unknown_slot hs ha]
      | some ag =>
          have h := (update_spec_of_known status message hs ha).2.1
          unfold sessionStatus
          rw [h]
          by_cases h2 : sid' = sid
          · subst h2
            rw [lookup_setKey_self, hs]
            simp [updatedSession, hs]
          · rw [lookup_setKey_ne _ _ _ _ h2]

theorem update_calls_cases {st : SMState} {sid aid : String}
    {status : AgentState} {message : Option String} :
    (update_agent_status sid aid status message st).calls = [] ∨
    (update_agent_status sid aid status message st).calls =
      [.agentUpdate aid status message] := by
  cases hs : lookup sid st.sessions with
  | none => rw [update_noop_of_unknown_session hs]; left; rfl
  | some sess =>
      cases ha : lookup aid sess.agents with
      | none => rw [update_keyerror_of_unknown_slot hs ha]; left; rfl
      | some ag => right; exact (update_spec_of_known status message hs ha).2.2

theorem directSetStatus_spec (v : SessionStatus) {st : SMState} {sid : String}
    {sess : Session} (hs : lookup sid st.sessions = some sess) :
    directSetStatus sid v st =
      ⟨.ok (), { st with sessions := setKey sid { sess with status := v } st.sessions },
       [], []⟩ := by
  simp [directSetStatus, PyM.bind, PyM.getState, PyM.setState, hs]

theorem directSetResult_spec (v : String) {st : SMState} {sid : String}
    {sess : Session} (hs : lookup sid st.sessions = some sess) :
    directSetResult sid v st =
      ⟨.ok (), { st with sessions := setKey sid { sess with result := some v } st.sessions },
       [], []⟩ := by
  simp [directSetResult, PyM.bind, PyM.getState, PyM.setState, hs]

theorem bind_ok {α β : Type} {m : PyM α} {f : α → PyM β} {st : SMState} {a : α}
    (h : (m st).res = .ok a) :
    PyM.bind m f st =
      ⟨(f a (m st).st).res, (f a (m st).st).st,
       (m st).calls ++ (f a (m st).st).calls,
       (m st).sent ++ (f a (m st).st).sent⟩ := by
  simp only [PyM.bind, h]

theorem bind_error {α β : Type} {m : PyM α} {f : α → PyM β} {st : SMState} {e : PyErr}
    (h : (m st).res = .error e) :
    PyM.bind m f st = ⟨.error e, (m st).st, (m st).calls, (m st).sent⟩ := by
  simp only [PyM.bind, h]

theorem tryCatch_ok {α : Type} {body : PyM α} {handler : PyErr → PyM α} {st : SMState}
    {a : α} (h : (body st).res = .ok a) :
    PyM.tryCatch body handler st = body st := by
  simp only [PyM.tryCatch, h]

theorem tryCatch_error {α : Type} {body : PyM α} {handler : PyErr → PyM α} {st : SMState}
    {e : PyErr} (h : (body st).res = .error e) :
    PyM.tryCatch body handler st =
      ⟨(handler e (body st).st).res, (handler e (body st).st).st,
       (body st).calls ++ (handler e (body st).st).calls,
       (body st).sent ++ (handler e (body st).st).sent⟩ := by
  simp only [PyM.tryCatch, h]

/-- After a successful `update_agent_status`, the session and the touched
slot are still found, with their updated contents. -/
theorem update_preserves_known (status : AgentState) (message : Option String)
    {st : SMState} {sid aid : String} {sess : Session} {ag : AgentStatus}
    (hs : lookup sid st.sessions = some sess)
    (ha : lookup aid sess.agents = some ag) :
    lookup sid (update_agent_status sid aid status message st).st.sessions =
      some (updatedSession sess aid status message ag) ∧
    lookup aid (updatedSession sess aid status message ag).agents =
      some (updatedAgent ag status message) := by
  constructor
  · rw [(update_spec_of_known status message hs ha).2.1, lookup_setKey_self, hs]
    rfl
  · show lookup aid (setKey aid (updatedAgent ag status message) sess.agents) = _
    rw [lookup_setKey_self, ha]
    rfl

theorem bind_parts {α β : Type} {m : PyM α} {f : α → PyM β} {st : SMState} {a : α}
    (h : (m st).res = .ok a) :
    (PyM.bind m f st).res = (f a (m st).st).res ∧
    (PyM.bind m f st).st = (f a (m st).st).st ∧
    (PyM.bind m f st).calls = (m st).calls ++ (f a (m st).st).calls := by
  rw [bind_ok h]
  exact ⟨rfl, rfl, rfl⟩

/-- Agent-slot reads compose the two lookups. -/
theorem agentSlot_eq {st : SMState} {sid aid : String} {sess : Session} {ag : AgentStatus}
    (hs : lookup sid st.sessions = some sess) (ha : lookup aid sess.agents = some ag) :
    agentSlot st sid aid = some ag := by
  simp only [agentSlot, hs, ha]

/-- A session created by `create_session` holds no slot outside the fixed
seven keys. -/
theorem lookup_freshAgents_none {aid : String}
    (h : aid ∉ ["search", "instagram", "linkedin", "youtube", "x", "web", "synthesis"]) :
    lookup aid freshAgents = none := by
  simp only [List.mem_cons, not_or] at h
  obtain ⟨h1, h2, h3, h4, h5, h6, h7⟩ := h
  have h7' : aid ≠ "synthesis" := by simpa using h7
  simp [freshAgents, lookup, Ne.symm h1, Ne.symm h2, Ne.symm h3, Ne.symm h4,
    Ne.symm h5, Ne.symm h6, Ne.symm h7']

/-! Section: the Done-stage sweep and the success branch of run_research -/

theorem agentSweep_spec (ids : List String) (sid : String) {st : SMState} {sess : Session}
    (hs : lookup sid st.sessions = some sess)
    (ha : ∀ aid ∈ ids, (lookup aid sess.agents).isSome) :
    (agentSweep sid ids st).res = .ok () ∧
    ∃ sess2, lookup sid (agentSweep sid ids st).st.sessions = some sess2 ∧
      sess2.status = sess.status ∧ sess2.result = sess.result ∧
      (∀ aid, (lookup aid sess2.agents).isSome = (lookup aid sess.agents).isSome) ∧
      (∀ aid ∈ ids, (lookup aid sess2.agents).map AgentStatus.status = some .done) ∧
      (∀ aid, aid ∉ ids → lookup aid sess2.agents = lookup aid sess.agents) := by
  induction ids generalizing st sess with
  | nil =>
      exact ⟨rfl, sess, hs, rfl, rfl, fun _ => rfl, by simp, fun _ _ => rfl⟩
  | cons aid rest ih =>
      obtain ⟨ag, haid⟩ :=
        Option.isSome_iff_exists.mp (ha aid (List.mem_cons_self aid rest))
      have hres := (update_spec_of_known AgentState.done none hs haid).1
      have hkeep := update_preserves_known AgentState.done none hs haid
      have hs1 := hkeep.1
      have ha1 : ∀ a ∈ rest,
          (lookup a (updatedSession sess aid .done none ag).agents).isSome := by
        intro a hmem
        have := ha a (List.mem_cons_of_mem _ hmem)
        simpa [updatedSession, lookup_setKey_isSome] using this
      obtain ⟨hresR, sess2, hs2, hstat2, hres2, hsome2, hdone2, hframe2⟩ := ih hs1 ha1
      have hunf : agentSweep sid (aid :: rest) st =
          PyM.bind (update_agent_status sid aid .done none)
            (fun _ => agentSweep sid rest) st := rfl
      constructor
      · rw [hunf, (bind_parts hres).1]
        exact hresR
      · refine ⟨sess2, ?_, ?_, ?_, ?_, ?_, ?_⟩
        · rw [hunf, (bind_parts hres).2.1]
          exact hs2
        · rw [hstat2]
          rfl
        · rw [hres2]
          rfl
        · intro a
          rw [hsome2 a]
          simp [updatedSession, lookup_setKey_isSome]
        · intro a hmem
          rcases List.mem_cons.mp hmem with h | h
          · subst h
            by_cases hmem2 : a ∈ rest
            · exact hdone2 a hmem2
            · rw [hframe2 a hmem2]
              simp [updatedSession, lookup_setKey_self, haid, updatedAgent, truthy]
          · exact hdone2 a h
        · intro a hnmem
          have h1 : a ≠ aid := fun hc => hnmem (hc ▸ List.mem_cons_self aid rest)
          have h2 : a ∉ rest := fun hc => hnmem (List.mem_cons_of_mem _ hc)
          rw [hframe2 a h2]
          simp [updatedSession, lookup_setKey_ne _ _ _ _ h1]

theorem doneBranch_spec (sid : String) (payload : Option String) {st : SMState}
    {sess : Session}
    (hs : lookup sid st.sessions = some sess)
    (ha : ∀ aid ∈ sweepIds, (lookup aid sess.agents).isSome) :
    (doneBranch sid payload st).res = .ok () ∧
    (∃ sess2, lookup sid (doneBranch sid payload st).st.sessions = some sess2 ∧
       sess2.status = .completed ∧
       sess2.result = some (payload.getD "No result returned") ∧
       (∀ aid ∈ sweepIds, (lookup aid sess2.agents).map AgentStatus.status = some .done)) ∧
    Event.researchComplete (payload.getD "No result returned") ∈
      (doneBranch sid payload st).calls := by
  obtain ⟨hresS, sessS, hsS, hstatS, hresS2, hsomeS, hdoneS, hframeS⟩ :=
    agentSweep_spec sweepIds sid hs ha
  have hE := directSetResult_spec (payload.getD "No result returned") hsS
  have hEres : (directSetResult sid (payload.getD "No result returned")
      ((agentSweep sid sweepIds st).st)).res = .ok () := by rw [hE]
  have hsE : lookup sid (directSetResult sid (payload.getD "No result returned")
      ((agentSweep sid sweepIds st).st)).st.sessions =
      some { sessS with result := some (payload.getD "No result returned") } := by
    rw [hE]
    simp [lookup_setKey_self, hsS]
  have hF := directSetStatus_spec SessionStatus.completed hsE
  have hFres : (directSetStatus sid SessionStatus.completed
      ((directSetResult sid (payload.getD "No result returned")
        ((agentSweep sid sweepIds st).st)).st)).res = .ok () := by rw [hF]
  have hsF : lookup sid (directSetStatus sid SessionStatus.completed
      ((directSetResult sid (payload.getD "No result returned")
        ((agentSweep sid sweepIds st).st)).st)).st.sessions =
      some { sessS with result := some (payload.getD "No result returned"),
                        status := SessionStatus.completed } := by
    rw [hF]
    simp [lookup_setKey_self, hsE]
  have hsesres : sessionResult (directSetStatus sid SessionStatus.completed
      ((directSetResult sid (payload.getD "No result returned")
        ((agentSweep sid sweepIds st).st)).st)).st sid =
      payload.getD "No result returned" := by
    simp [sessionResult, hsF]
  have hB := broadcast_spec sid
    (.researchComplete (payload.getD "No result returned"))
    ((directSetStatus sid SessionStatus.completed
      ((directSetResult sid (payload.getD "No result returned")
        ((agentSweep sid sweepIds st).st)).st)).st)
  have hGres : (PyM.getState ((directSetStatus sid SessionStatus.completed
      ((directSetResult sid (payload.getD "No result returned")
        ((agentSweep sid sweepIds st).st)).st)).st)).res =
      Except.ok ((directSetStatus sid SessionStatus.completed
      ((directSetResult sid (payload.getD "No result returned")
        ((agentSweep sid sweepIds st).st)).st)).st) := rfl
  have hcomp : (doneBranch sid payload st).res =
        (broadcast sid (.researchComplete (payload.getD "No result returned"))
          ((directSetStatus sid SessionStatus.completed
            ((directSetResult sid (payload.getD "No result returned")
              ((agentSweep sid sweepIds st).st)).st)).st)).res ∧
      (doneBranch sid payload st).st =
        (broadcast sid (.researchComplete (payload.getD "No result returned"))
          ((directSetStatus sid SessionStatus.completed
            ((directSetResult sid (payload.getD "No result returned")
              ((agentSweep sid sweepIds st).st)).st)).st)).st ∧
      Event.researchComplete (payload.getD "No result returned") ∈
        (doneBranch sid payload st).calls := by
    simp only [doneBranch, bind_ok hresS, bind_ok hEres, bind_ok hFres, bind_ok hGres,
      PyM.getState, hsesres]
    simp [hB.2.2]
  refine ⟨?_, ⟨{ sessS with result := some (payload.getD "No result returned"), status := SessionStatus.completed }, ?_, rfl, rfl, ?_⟩, hcomp.2.2⟩
  · rw [hcomp.1]
    exact hB.1
  · rw [hcomp.2.1, hB.2.1]
    exact hsF
  · intro aid hmem
    exact hdoneS aid hmem

/-! Section: Extract-stage branch behaviour -/

/-- Readiness of one branch's status updates: either no session id is
attached, or the update is a well-defined no-op/mutation — the slot
exists exactly when the session does. -/
def slotReady (st : SMState) (sid : Option String) (p : String) : Prop :=
  match sid with
  | none => True
  | some s => (agentSlot st s p).isSome = (lookup s st.sessions).isSome

theorem agentSlot_isSome_elim {st : SMState} {s aid : String}
    (h : (agentSlot st s aid).isSome = true) :
    ∃ sess ag, lookup s st.sessions = some sess ∧ lookup aid sess.agents = some ag := by
  cases hs : lookup s st.sessions with
  | none => simp [agentSlot, hs] at h
  | some sess =>
      simp only [agentSlot, hs] at h
      obtain ⟨ag, hag⟩ := Option.isSome_iff_exists.mp h
      exact ⟨sess, ag, rfl, hag⟩

theorem update_session_isSome {st : SMState} {sid aid : String}
    {status : AgentState} {message : Option String} (sid2 : String) :
    (lookup sid2 (update_agent_status sid aid status message st).st.sessions).isSome =
      (lookup sid2 st.sessions).isSome := by
  cases hs : lookup sid st.sessions with
  | none => rw [update_noop_of_unknown_session hs]
  | some sess =>
      cases ha : lookup aid sess.agents with
      | none => rw [update_keyerror_of_unknown_slot hs ha]
      | some ag =>
          rw [(update_spec_of_known status message hs ha).2.1]
          exact lookup_setKey_isSome _ _ _ _

theorem update_slotReady {st : SMState} {sid aid : String}
    {status : AgentState} {message : Option String} (sidq : Option String) (q : String) :
    slotReady (update_agent_status sid aid status message st).st sidq q ↔
      slotReady st sidq q := by
  cases sidq with
  | none => exact Iff.rfl
  | some s =>
      simp only [slotReady]
      rw [@update_agentSlot_isSome st sid aid status message s q,
        @update_session_isSome st sid aid status message s]

/-- Guarded-update variants of the update lemmas. -/
theorem maybeUpdate_calls_sub (sid : Option String) (aid : String) (status : AgentState)
    (m : Option String) (st : SMState) :
    (maybeUpdate sid aid status m st).calls = [] ∨
    (maybeUpdate sid aid status m st).calls = [.agentUpdate aid status m] := by
  cases sid with
  | none => left; rfl
  | some s => exact update_calls_cases

theorem maybeUpdate_slot_other (sid : Option String) (aid : String) (status : AgentState)
    (m : Option String) (st : SMState) (sid2 aid2 : String) (hne : aid2 ≠ aid) :
    agentSlot (maybeUpdate sid aid status m st).st sid2 aid2 = agentSlot st sid2 aid2 := by
  cases sid with
  | none => rfl
  | some s => exact update_agentSlot_other sid2 aid2 hne

theorem maybeUpdate_slotReady (sid : Option String) (aid : String) (status : AgentState)
    (m : Option String) (st : SMState) (sidq : Option String) (q : String) :
    slotReady (maybeUpdate sid aid status m st).st sidq q ↔ slotReady st sidq q := by
  cases sid with
  | none => exact Iff.rfl
  | some s => exact update_slotReady sidq q

theorem maybeUpdate_res_ok (sid : Option String) (aid : String) (status : AgentState)
    (m : Option String) (st : SMState) (h : slotReady st sid aid) :
    (maybeUpdate sid aid status m st).res = .ok () := by
  cases sid with
  | none => rfl
  | some s =>
      cases hs : lookup s st.sessions with
      | none => rw [show maybeUpdate (some s) aid status m st =
            update_agent_status s aid status m st from rfl,
          update_noop_of_unknown_session hs]
      | some sess =>
          have hsome : (agentSlot st s aid).isSome = true := by
            simp only [slotReady] at h
            rw [hs] at h
            simpa using h
          obtain ⟨sess2, ag, hs2, ha2⟩ := agentSlot_isSome_elim hsome
          exact (update_spec_of_known status m hs2 ha2).1

/-- Composition of a state-relation through `bind`. -/
theorem bind_st_preserve {α β : Type} (P : SMState → SMState → Prop)
    (hrefl : ∀ a, P a a) (htrans : ∀ a b c, P a b → P b c → P a c)
    {m : PyM α} {f : α → PyM β}
    (hm : ∀ a, P a ((m a).st)) (hf : ∀ x a, P a ((f x a).st)) (st : SMState) :
    P st ((PyM.bind m f st).st) := by
  simp only [PyM.bind]
  cases h : (m st).res with
  | ok a =>
      simpa [h] using htrans _ _ _ (hm st) (hf a (m st).st)
  | error e => simpa [h] using hm st

/-- Calls of a `bind` come from one of its two parts. -/
theorem bind_calls_sub {α β : Type} {m : PyM α} {f : α → PyM β} {st : SMState} :
    ∀ ev ∈ (PyM.bind m f st).calls,
      ev ∈ (m st).calls ∨ ∃ a, ev ∈ (f a (m st).st).calls := by
  intro ev hev
  simp only [PyM.bind] at hev
  cases h : (m st).res with
  | ok a =>
      rw [h] at hev
      simp only [List.mem_append] at hev
      rcases hev with h2 | h2
      · exact Or.inl h2
      · exact Or.inr ⟨a, h2⟩
  | error e =>
      rw [h] at hev
      exact Or.inl hev

theorem processPlatform_empty (oracle : String → BranchOutcome) (sid : Option String)
    (p : String) (st : SMState) :
    processPlatform oracle sid p [] st = ⟨.ok [], st, [], []⟩ := rfl

theorem processPlatform_slot_other (oracle : String → BranchOutcome) (sid : Option String)
    (p : String) (urls : List String) (st : SMState) (sid2 aid : String) (hne : aid ≠ p) :
    agentSlot (processPlatform oracle sid p urls st).st sid2 aid =
      agentSlot st sid2 aid := by
  have hP : ∀ st1, agentSlot ((processPlatform oracle sid p urls st1).st) sid2 aid =
      agentSlot st1 sid2 aid → True := fun _ _ => trivial
  by_cases hu : urls = []
  · subst hu
    rfl
  · simp only [processPlatform, hu, if_neg, if_false]
    cases oracle p with
    | failEarly e => rfl
    | failLate e =>
        refine bind_st_preserve (fun a b => agentSlot b sid2 aid = agentSlot a sid2 aid)
          (fun _ => rfl) (fun a b c h1 h2 => h2.trans h1) ?_ ?_ st
        · intro a
          exact maybeUpdate_slot_other sid p _ _ a sid2 aid hne
        · intro _ a
          rfl
    | success out =>
        refine bind_st_preserve (fun a b => agentSlot b sid2 aid = agentSlot a sid2 aid)
          (fun _ => rfl) (fun a b c h1 h2 => h2.trans h1) ?_ ?_ st
        · intro a
          exact maybeUpdate_slot_other sid p _ _ a sid2 aid hne
        · intro _ a
          refine bind_st_preserve (fun a b => agentSlot b sid2 aid = agentSlot a sid2 aid)
            (fun _ => rfl) (fun a b c h1 h2 => h2.trans h1) ?_ ?_ a
          · intro a2
            exact maybeUpdate_slot_other sid p _ _ a2 sid2 aid hne
          · intro _ _
            rfl

theorem processPlatform_slotReady (oracle : String → BranchOutcome) (sid : Option String)
    (p : String) (urls : List String) (st : SMState) (sidq : Option String) (q : String) :
    slotReady (processPlatform oracle sid p urls st).st sidq q ↔ slotReady st sidq q := by
  by_cases hu : urls = []
  · subst hu
    exact Iff.rfl
  · simp only [processPlatform, hu, if_neg, if_false]
    cases oracle p with
    | failEarly e => exact Iff.rfl
    | failLate e =>
        refine bind_st_preserve (fun a b => slotReady b sidq q ↔ slotReady a sidq q)
          (fun _ => Iff.rfl) (fun a b c h1 h2 => h2.trans h1) ?_ ?_ st
        · intro a
          exact maybeUpdate_slotReady sid p _ _ a sidq q
        · intro _ _
          exact Iff.rfl
    | success out =>
        refine bind_st_preserve (fun a b => slotReady b sidq q ↔ slotReady a sidq q)
          (fun _ => Iff.rfl) (fun a b c h1 h2 => h2.trans h1) ?_ ?_ st
        · intro a
          exact maybeUpdate_slotReady sid p _ _ a sidq q
        · intro _ a
          refine bind_st_preserve (fun a b => slotReady b sidq q ↔ slotReady a sidq q)
            (fun _ => Iff.rfl) (fun a b c h1 h2 => h2.trans h1) ?_ ?_ a
          · intro a2
            exact maybeUpdate_slotReady sid p _ _ a2 sidq q
          · intro _ _
            exact Iff.rfl

theorem processPlatform_calls (oracle : String → BranchOutcome) (sid : Option String)
    (p : String) (urls : List String) (st : SMState) :
    ∀ ev ∈ (processPlatform oracle sid p urls st).calls,
      (∃ s m, ev = Event.agentUpdate p s m ∧ (s = .running ∨ s = .done)) ∧ urls ≠ [] := by
  intro ev hev
  by_cases hu : urls = []
  · subst hu
    simp [processPlatform, PyM.pure] at hev
  · refine ⟨?_, hu⟩
    simp only [processPlatform, hu, if_neg, if_false] at hev
    cases horacle : oracle p with
    | failEarly e =>
        rw [horacle] at hev
        simp [PyM.raise] at hev
    | failLate e =>
        rw [horacle] at hev
        rcases bind_calls_sub ev hev with h | ⟨a, h⟩
        · rcases maybeUpdate_calls_sub sid p .running _ st with hc | hc <;> rw [hc] at h
          · simp at h
          · simp at h
            exact ⟨.running, _, by rw [h], Or.inl rfl⟩
        · simp [PyM.raise] at h
    | success out =>
        rw [horacle] at hev
        rcases bind_calls_sub ev hev with h | ⟨a, h⟩
        · rcases maybeUpdate_calls_sub sid p .running _ st with hc | hc <;> rw [hc] at h
          · simp at h
          · simp at h
            exact ⟨.running, _, by rw [h], Or.inl rfl⟩
        · rcases bind_calls_sub ev h with h2 | ⟨a2, h2⟩
          · rcases maybeUpdate_calls_sub sid p .done _ _ with hc | hc <;> rw [hc] at h2
            · simp at h2
            · simp at h2
              exact ⟨.done, _, by rw [h2], Or.inr rfl⟩
          · simp [PyM.pure] at h2

theorem processPlatform_res (oracle : String → BranchOutcome) (sid : Option String)
    (p : String) (urls : List String) (st : SMState) (h : slotReady st sid p) :
    (processPlatform oracle sid p urls st).res = branchResult oracle p urls := by
  by_cases hu : urls = []
  · subst hu
    rfl
  · cases horacle : oracle p with
    | failEarly e =>
        simp [processPlatform, branchResult, hu, horacle, PyM.raise]
    | failLate e =>
        simp only [processPlatform, branchResult, hu, if_neg, if_false, horacle]
        rw [bind_ok (maybeUpdate_res_ok sid p .running _ st h)]
        rfl
    | success out =>
        have h2 : slotReady (maybeUpdate sid p .running
            (some ("Analyzing " ++ toString urls.length ++ " URLs...")) st).st sid p :=
          (maybeUpdate_slotReady sid p _ _ st sid p).mpr h
        simp only [processPlatform, branchResult, hu, if_neg, if_false, horacle]
        rw [bind_ok (maybeUpdate_res_ok sid p .running _ st h),
          bind_ok (maybeUpdate_res_ok sid p .done _ _ h2)]
        rfl

theorem gather_cons_st {α : Type} (t : PyM α) (ts : List (PyM α)) (st : SMState) :
    (gatherPy (t :: ts) st).st = (gatherPy ts (t st).st).st := rfl

theorem gather_cons_calls {α : Type} (t : PyM α) (ts : List (PyM α)) (st : SMState) :
    (gatherPy (t :: ts) st).calls = (t st).calls ++ (gatherPy ts (t st).st).calls := rfl

theorem gather_cons_res {α : Type} (t : PyM α) (ts : List (PyM α)) (st : SMState)
    {l : List (Except PyErr α)} (h : (gatherPy ts (t st).st).res = .ok l) :
    (gatherPy (t :: ts) st).res = .ok ((t st).res :: l) := by
  show (match (gatherPy ts (t st).st).res with
    | .ok l => Except.ok ((t st).res :: l)
    | .error e => Except.error e) = _
  rw [h]

theorem gather_spec (oracle : String → BranchOutcome) (sid : Option String) :
    ∀ (buckets : List (String × List String)) (st : SMState),
    (∀ sid2 aid, (∀ u, (aid, u) ∈ buckets → u = []) →
      agentSlot (gatherPy (buckets.map fun pb =>
        processPlatform oracle sid pb.1 pb.2) st).st sid2 aid = agentSlot st sid2 aid) ∧
    (∀ ev ∈ (gatherPy (buckets.map fun pb =>
        processPlatform oracle sid pb.1 pb.2) st).calls,
      ∃ q s m, ev = Event.agentUpdate q s m ∧ (s = .running ∨ s = .done) ∧
        ∃ u, (q, u) ∈ buckets ∧ u ≠ []) ∧
    (∀ q, slotReady (gatherPy (buckets.map fun pb =>
        processPlatform oracle sid pb.1 pb.2) st).st sid q ↔ slotReady st sid q) ∧
    ((∀ pb ∈ buckets, slotReady st sid pb.1) →
      (gatherPy (buckets.map fun pb =>
        processPlatform oracle sid pb.1 pb.2) st).res =
        .ok (branchOutcomes oracle buckets)) := by
  intro buckets
  induction buckets with
  | nil =>
      intro st
      refine ⟨fun _ _ _ => rfl, ?_, fun _ => Iff.rfl, fun _ => rfl⟩
      intro ev hev
      simp [gatherPy, PyM.pure] at hev
  | cons hd tl ih =>
      intro st
      obtain ⟨p, urls⟩ := hd
      have hmap : (((p, urls) :: tl).map fun pb =>
          processPlatform oracle sid pb.1 pb.2) =
          processPlatform oracle sid p urls ::
            (tl.map fun pb => processPlatform oracle sid pb.1 pb.2) := by
        simp
      refine ⟨?_, ?_, ?_, ?_⟩
      · intro sid2 aid hall
        have htl : ∀ u, (aid, u) ∈ tl → u = [] :=
          fun u hu => hall u (List.mem_cons_of_mem _ hu)
        rw [hmap, gather_cons_st,
          (ih ((processPlatform oracle sid p urls st).st)).1 sid2 aid htl]
        by_cases haid : aid = p
        · subst haid
          have hurls : urls = [] := hall urls (List.mem_cons_self _ _)
          subst hurls
          rfl
        · exact processPlatform_slot_other oracle sid p urls st sid2 aid haid
      · intro ev hev
        rw [hmap, gather_cons_calls] at hev
        rcases List.mem_append.mp hev with h | h
        · obtain ⟨⟨s, m, heq, hsm⟩, hne⟩ :=
            processPlatform_calls oracle sid p urls st ev h
          exact ⟨p, s, m, heq, hsm, urls, List.mem_cons_self _ _, hne⟩
        · obtain ⟨q, s, m, heq, hsm, u, hu, hune⟩ :=
            (ih ((processPlatform oracle sid p urls st).st)).2.1 ev h
          exact ⟨q, s, m, heq, hsm, u, List.mem_cons_of_mem _ hu, hune⟩
      · intro q
        rw [hmap, gather_cons_st]
        exact ((ih ((processPlatform oracle sid p urls st).st)).2.2.1 q).trans
          (processPlatform_slotReady oracle sid p urls st sid q)
      · intro hready
        have hreadyP : slotReady st sid p := hready (p, urls) (List.mem_cons_self _ _)
        have hres1 := processPlatform_res oracle sid p urls st hreadyP
        have hreadytl : ∀ pb ∈ tl,
            slotReady ((processPlatform oracle sid p urls st).st) sid pb.1 :=
          fun pb hpb => (processPlatform_slotReady oracle sid p urls st sid pb.1).mpr
            (hready pb (List.mem_cons_of_mem _ hpb))
        have hres2 := (ih ((processPlatform oracle sid p urls st).st)).2.2.2 hreadytl
        rw [hmap, gather_cons_res _ _ _ hres2, hres1]
        simp [branchOutcomes]

/-! Section: fan-in list lemmas -/

theorem fanIn_cons_ok (p : String) (ps : List String)
    (l : List SpecialistOutput) (rs : List (Except PyErr (List SpecialistOutput))) :
    fanIn (p :: ps) (.ok l :: rs) = l ++ fanIn ps rs := rfl

theorem fanIn_cons_error (p : String) (ps : List String) (e : PyErr)
    (rs : List (Except PyErr (List SpecialistOutput))) :
    fanIn (p :: ps) (.error e :: rs) = sentinel p e :: fanIn ps rs := rfl

/-- The fan-in arity law: one record per platform with a non-empty URL
list, zero records for the rest, whatever the oracle does. -/
theorem fanIn_length (oracle : String → BranchOutcome) :
    ∀ buckets : List (String × List String),
    (fanIn (buckets.map Prod.fst) (branchOutcomes oracle buckets)).length =
      (buckets.filter fun pb => !pb.2.isEmpty).length := by
  intro buckets
  induction buckets with
  | nil => rfl
  | cons hd tl ih =>
      obtain ⟨p, urls⟩ := hd
      by_cases hu : urls = []
      · subst hu
        simpa [branchOutcomes, branchResult, fanIn_cons_ok] using ih
      · have hne : urls.isEmpty = false := by
          cases urls
          · exact absurd rfl hu
          · rfl
        simp only [branchOutcomes, branchResult] at ih
        cases horacle : oracle p with
        | success out =>
            simp [branchOutcomes, branchResult, hu, horacle, fanIn_cons_ok, hne, ih,
              List.filter]
        | failEarly e =>
            simp [branchOutcomes, branchResult, hu, horacle, fanIn_cons_error, hne, ih,
              List.filter]
        | failLate e =>
            simp [branchOutcomes, branchResult, hu, horacle, fanIn_cons_error, hne, ih,
              List.filter]

/-- Every failed dispatched branch contributes its sentinel record. -/
theorem fanIn_sentinel_mem (oracle : String → BranchOutcome) :
    ∀ (buckets : List (String × List String)) (p : String) (urls : List String) (e : PyErr),
    (p, urls) ∈ buckets → urls ≠ [] →
    (oracle p = .failEarly e ∨ oracle p = .failLate e) →
    sentinel p e ∈ fanIn (buckets.map Prod.fst) (branchOutcomes oracle buckets) := by
  intro buckets
  induction buckets with
  | nil =>
      intro p urls e hmem
      simp at hmem
  | cons hd tl ih =>
      intro p urls e hmem hne horacle
      obtain ⟨q, us⟩ := hd
      rcases List.mem_cons.mp hmem with h | h
      · obtain ⟨h1, h2⟩ := Prod.mk.injEq .. ▸ h
        · subst h1
          subst h2
          rcases horacle with ho | ho <;>
            simp [branchOutcomes, branchResult, hne, ho, fanIn_cons_error]
      · have hrec := ih p urls e h hne horacle
        by_cases hus : us = []
        · subst hus
          simpa [branchOutcomes, branchResult, fanIn_cons_ok] using hrec
        · cases ho2 : oracle q with
          | success out =>
              simp [branchOutcomes, branchResult, hus, ho2, fanIn_cons_ok]
              right
              simpa [branchOutcomes, branchResult] using hrec
          | failEarly e2 =>
              simp [branchOutcomes, branchResult, hus, ho2, fanIn_cons_error]
              right
              simpa [branchOutcomes, branchResult] using hrec
          | failLate e2 =>
              simp [branchOutcomes, branchResult, hus, ho2, fanIn_cons_error]
              right
              simpa [branchOutcomes, branchResult] using hrec

/-! Section: example states used as concrete witnesses -/

/-- Registry with exactly one freshly created session `"s1"` for query
`"q"` and no channel attached. -/
def exFresh : SMState := ⟨[("s1", freshSession "q")], []⟩

/-- A mid-run session whose `search` slot carries an earlier progress
message. -/
def exMsgSession : Session :=
  { query := "q", status := .running,
    agents := [("search", ⟨.running, "search", some "old note"⟩)], result := none }

/-- Registry holding `exMsgSession` under id `"s1"`. -/
def exMsgState : SMState := ⟨[("s1", exMsgSession)], []⟩

/-- Registry with one session and one broken channel attached to it. -/
def exBrokenWs : SMState := ⟨[("s1", freshSession "q")], [("s1", false)]⟩

/-! Section: claim C4 — broadcast never raises -/

/-- C4: for every session id and event, `broadcast` returns normally; with
no channel attached the send is silently skipped (state untouched, nothing
delivered), and when the send to the attached channel raises, the
exception is swallowed and the channel is detached. -/
theorem c4_broadcast_never_raises (st : SMState) (sid : String) (ev : Event) :
    (broadcast sid ev st).res = .ok () ∧
    (lookup sid st.websockets = none →
      broadcast sid ev st = ⟨.ok (), st, [ev], []⟩) ∧
    (lookup sid st.websockets = some false →
      broadcast sid ev st =
        ⟨.ok (), { st with websockets := eraseKey sid st.websockets }, [ev], []⟩) := by
  refine ⟨(broadcast_spec sid ev st).1, ?_, ?_⟩
  · intro h
    simp [broadcast, PyM.bind, PyM.recordCall, PyM.getState, PyM.pure, h]
  · intro h
    simp [broadcast, PyM.bind, PyM.recordCall, PyM.getState, PyM.pure, PyM.tryCatch,
      PyM.wsSend, PyM.setState, h]

/-- C4 witness: on a registry whose only channel for `"s1"` is broken,
broadcasting swallows the failure and detaches the channel. -/
theorem c4_broadcast_never_raises_witness :
    (broadcast "s1" (.flowStarted "q") exBrokenWs).res = .ok () ∧
    lookup "s1" exBrokenWs.websockets = some false ∧
    broadcast "s1" (.flowStarted "q") exBrokenWs =
      ⟨.ok (), { exBrokenWs with websockets := eraseKey "s1" exBrokenWs.websockets },
       [.flowStarted "q"], []⟩ :=
  ⟨(c4_broadcast_never_raises exBrokenWs "s1" (.flowStarted "q")).1, rfl,
   (c4_broadcast_never_raises exBrokenWs "s1" (.flowStarted "q")).2.2 rfl⟩

/-! Section: claim C7 — unknown session id is a silent no-op -/

/-- C7: `update_agent_status` on an unknown session id raises nothing,
leaves the whole registry state unchanged, and passes no event to
`broadcast`. -/
theorem c7_update_unknown_session_noop (st : SMState) (sid aid : String)
    (status : AgentState) (message : Option String)
    (h : lookup sid st.sessions = none) :
    update_agent_status sid aid status message st = ⟨.ok (), st, [], []⟩ :=
  update_noop_of_unknown_session h

/-- C7 witness: updating a slot of the absent session `"ghost"`. -/
theorem c7_update_unknown_session_noop_witness :
    lookup "ghost" exFresh.sessions = none ∧
    update_agent_status "ghost" "search" .running none exFresh = ⟨.ok (), exFresh, [], []⟩ :=
  ⟨rfl, c7_update_unknown_session_noop exFresh "ghost" "search" .running none rfl⟩

/-! Section: claim C10 — unknown slot name raises KeyError -/

/-- C10: on a known session created by `create_session`, updating a slot
name outside the fixed seven keys raises `KeyError` (the agents dict is
indexed unguarded); the unknown-id no-op does not extend to unknown slot
names.  The raise happens before any mutation or broadcast. -/
theorem c10_update_unknown_slot_keyerror (st : SMState) (sid aid query : String)
    (status : AgentState) (message : Option String)
    (hs : lookup sid st.sessions = some (freshSession query))
    (ha : aid ∉ ["search", "instagram", "linkedin", "youtube", "x", "web", "synthesis"]) :
    update_agent_status sid aid status message st = ⟨.error (keyError aid), st, [], []⟩ :=
  update_keyerror_of_unknown_slot hs (lookup_freshAgents_none ha)

/-- C10 witness: the unknown slot `"zzz"` of the known session `"s1"`. -/
theorem c10_update_unknown_slot_keyerror_witness :
    lookup "s1" exFresh.sessions = some (freshSession "q") ∧
    update_agent_status "s1" "zzz" .running none exFresh =
      ⟨.error (keyError "zzz"), exFresh, [], []⟩ :=
  ⟨rfl, c10_update_unknown_slot_keyerror exFresh "s1" "zzz" "q" .running none rfl
    (by decide)⟩

/-! Section: claim C3 — Done-stage closing invariant -/

/-- A mid-run session whose `synthesis` slot is `running`, as left by a
crash inside Synthesize. -/
def exErrSession : Session :=
  { query := "q", status := .running,
    agents := [("search", ⟨.done, "search", none⟩),
               ("synthesis", ⟨.running, "synthesis", none⟩)],
    result := none }

/-- Registry holding `exErrSession` under id `"s1"`. -/
def exErrState : SMState := ⟨[("s1", exErrSession)], []⟩

/-- C3 counterexample: when the flow raises (the pipeline reaches Error,
not Done), `run_research` sets the session status to `error` but sweeps
no slot, so the `synthesis` slot is left `running` — contradicting the
claim that once the pipeline reaches Done/Error no slot is left running
or waiting. -/
theorem c3_error_leaves_slot_running :
    (agentSlot (run_research "s1" "q" (.error ⟨"RuntimeError", "llm down"⟩) exErrState).st
        "s1" "synthesis").map AgentStatus.status = some .running ∧
    sessionStatus (run_research "s1" "q" (.error ⟨"RuntimeError", "llm down"⟩)
        exErrState).st "s1" = some .error ∧
    AgentState.running ≠ AgentState.done ∧ AgentState.running ≠ AgentState.error :=
  ⟨rfl, rfl, by simp, by simp⟩

/-- Full behaviour of `run_research` on a known session with the seven
standard slots: the Done path sets `completed`, sweeps every slot to
`done`, stores the result and hands `research_complete` to broadcast;
the Error path sets `error`, broadcasts an `error` event and leaves
every slot but `search` untouched. -/
theorem run_research_spec (sid query : String) (flowOut : Except PyErr (Option String))
    {st : SMState} {sess : Session}
    (hs : lookup sid st.sessions = some sess)
    (ha : ∀ aid ∈ sweepIds, (lookup aid sess.agents).isSome) :
    (run_research sid query flowOut st).res = .ok () ∧
    (match flowOut with
     | .ok payload =>
         sessionStatus (run_research sid query flowOut st).st sid = some .completed ∧
         (∀ aid ∈ sweepIds,
           (agentSlot (run_research sid query flowOut st).st sid aid).map
             AgentStatus.status = some .done) ∧
         (∃ sess2, lookup sid (run_research sid query flowOut st).st.sessions = some sess2 ∧
            sess2.result = some (payload.getD "No result returned")) ∧
         Event.researchComplete (payload.getD "No result returned") ∈
           (run_research sid query flowOut st).calls
     | .error e =>
         sessionStatus (run_research sid query flowOut st).st sid = some .error ∧
         (∀ aid, aid ≠ "search" →
           agentSlot (run_research sid query flowOut st).st sid aid = agentSlot st sid aid) ∧
         Event.errorEvent e.msg ∈ (run_research sid query flowOut st).calls) := by
  have hsearchMem : ("search" : String) ∈ sweepIds := by simp [sweepIds]
  obtain ⟨agS, haS⟩ := Option.isSome_iff_exists.mp (ha "search" hsearchMem)
  have hG0 : (PyM.getState st).res = Except.ok st := rfl
  have hA := directSetStatus_spec SessionStatus.running hs
  have hAres : (directSetStatus sid SessionStatus.running st).res = .ok () := by rw [hA]
  have hsA : lookup sid (directSetStatus sid SessionStatus.running st).st.sessions =
      some { sess with status := SessionStatus.running } := by
    rw [hA]
    simp [lookup_setKey_self, hs]
  have haA : lookup "search"
      ({ sess with status := SessionStatus.running } : Session).agents = some agS := haS
  have hBres := (update_spec_of_known AgentState.running
    (some "Searching for relevant URLs...") hsA haA).1
  have hkeepB := update_preserves_known AgentState.running
    (some "Searching for relevant URLs...") hsA haA
  have hsB := hkeepB.1
  have hCbr := broadcast_spec sid (Event.flowStarted query)
    ((update_agent_status sid "search" AgentState.running
      (some "Searching for relevant URLs...")
      ((directSetStatus sid SessionStatus.running st).st)).st)
  have hCres := hCbr.1
  have hsC : lookup sid (broadcast sid (Event.flowStarted query)
      ((update_agent_status sid "search" AgentState.running
        (some "Searching for relevant URLs...")
        ((directSetStatus sid SessionStatus.running st).st)).st)).st.sessions =
      some (updatedSession { sess with status := SessionStatus.running } "search"
        AgentState.running (some "Searching for relevant URLs...") agS) := by
    rw [hCbr.2.1]
    exact hsB
  have haC : ∀ aid ∈ sweepIds,
      (lookup aid (updatedSession { sess with status := SessionStatus.running } "search"
        AgentState.running (some "Searching for relevant URLs...") agS).agents).isSome := by
    intro aid hmem
    have := ha aid hmem
    simpa [updatedSession, lookup_setKey_isSome] using this
  cases flowOut with
  | ok payload =>
      obtain ⟨hDres, ⟨sess2, hs2, hstat2, hres2, hdone2⟩, hmem2⟩ :=
        doneBranch_spec sid payload hsC haC
      have hcomp : (run_research sid query (.ok payload) st).res = .ok () ∧
          (run_research sid query (.ok payload) st).st =
            (doneBranch sid payload ((broadcast sid (Event.flowStarted query)
              ((update_agent_status sid "search" AgentState.running
                (some "Searching for relevant URLs...")
                ((directSetStatus sid SessionStatus.running st).st)).st)).st)).st ∧
          Event.researchComplete (payload.getD "No result returned") ∈
            (run_research sid query (.ok payload) st).calls := by
        simp only [run_research, PyM.tryCatch, bind_ok hG0, PyM.getState, hs,
          bind_ok hAres, bind_ok hBres, bind_ok hCres, hDres]
        refine ⟨trivial, trivial, ?_⟩
        simp [hmem2]
      refine ⟨hcomp.1, ?_, ?_, ⟨sess2, ?_, hres2⟩, hcomp.2.2⟩
      · simp only [hcomp.2.1, sessionStatus, hs2]
        simp [hstat2]
      · intro aid hmem
        simp only [hcomp.2.1, agentSlot, hs2]
        exact hdone2 aid hmem
      · rw [hcomp.2.1]
        exact hs2
  | error e =>
      have hEB := directSetStatus_spec SessionStatus.error hsC
      have hEBres : (directSetStatus sid SessionStatus.error
          ((broadcast sid (Event.flowStarted query)
            ((update_agent_status sid "search" AgentState.running
              (some "Searching for relevant URLs...")
              ((directSetStatus sid SessionStatus.running st).st)).st)).st)).res =
          .ok () := by rw [hEB]
      have hBB := broadcast_spec sid (Event.errorEvent e.msg)
        ((directSetStatus sid SessionStatus.error
          ((broadcast sid (Event.flowStarted query)
            ((update_agent_status sid "search" AgentState.running
              (some "Searching for relevant URLs...")
              ((directSetStatus sid SessionStatus.running st).st)).st)).st)).st)
      have hBBres := hBB.1
      have hcomp : (run_research sid query (.error e) st).res = .ok () ∧
          (run_research sid query (.error e) st).st =
            (broadcast sid (Event.errorEvent e.msg)
              ((directSetStatus sid SessionStatus.error
                ((broadcast sid (Event.flowStarted query)
                  ((update_agent_status sid "search" AgentState.running
                    (some "Searching for relevant URLs...")
                    ((directSetStatus sid SessionStatus.running st).st)).st)).st)).st)).st ∧
          Event.errorEvent e.msg ∈ (run_research sid query (.error e) st).calls := by
        simp only [run_research, PyM.tryCatch, bind_ok hG0, PyM.getState, hs,
          bind_ok hAres, bind_ok hBres, bind_ok hCres, PyM.raise, errorBranch,
          bind_ok hEBres, hBBres]
        refine ⟨trivial, trivial, ?_⟩
        simp [hBB.2.2]
      have hsErr : lookup sid ((broadcast sid (Event.errorEvent e.msg)
          ((directSetStatus sid SessionStatus.error
            ((broadcast sid (Event.flowStarted query)
              ((update_agent_status sid "search" AgentState.running
                (some "Searching for relevant URLs...")
                ((directSetStatus sid SessionStatus.running st).st)).st)).st)).st)).st).sessions =
          some { updatedSession { sess with status := SessionStatus.running } "search"
            AgentState.running (some "Searching for relevant URLs...") agS with
            status := SessionStatus.error } := by
        rw [hBB.2.1, hEB]
        simp [lookup_setKey_self, hsC]
      refine ⟨hcomp.1, ?_, ?_, hcomp.2.2⟩
      · simp only [hcomp.2.1, sessionStatus, hsErr]
        simp
      · intro aid hne
        simp only [hcomp.2.1, agentSlot, hsErr, hs]
        show lookup aid (updatedSession { sess with status := SessionStatus.running } "search"
          AgentState.running (some "Searching for relevant URLs...") agS).agents =
          lookup aid sess.agents
        simp only [updatedSession]
        exact lookup_setKey_ne _ _ _ _ hne

/-- C3 (amended): when the flow returns (pipeline reaches Done) the
session status is set to `completed`, every one of the seven slots is
forced to `done`, the final text is stored as the session result, and a
`research_complete` event carrying it is handed to broadcast.  When the
flow raises (pipeline reaches Error) the status becomes `error` and an
`error` event is broadcast, but no slot is swept: every slot other than
`search` keeps its pre-run state, so a slot may stay `running` or
`waiting`. -/
theorem c3_run_research_spec (sid query : String) (flowOut : Except PyErr (Option String))
    {st : SMState} {sess : Session}
    (hs : lookup sid st.sessions = some sess)
    (ha : ∀ aid ∈ sweepIds, (lookup aid sess.agents).isSome) :
    (run_research sid query flowOut st).res = .ok () ∧
    (match flowOut with
     | .ok payload =>
         sessionStatus (run_research sid query flowOut st).st sid = some .completed ∧
         (∀ aid ∈ sweepIds,
           (agentSlot (run_research sid query flowOut st).st sid aid).map
             AgentStatus.status = some .done) ∧
         (∃ sess2, lookup sid (run_research sid query flowOut st).st.sessions = some sess2 ∧
            sess2.result = some (payload.getD "No result returned")) ∧
         Event.researchComplete (payload.getD "No result returned") ∈
           (run_research sid query flowOut st).calls
     | .error e =>
         sessionStatus (run_research sid query flowOut st).st sid = some .error ∧
         (∀ aid, aid ≠ "search" →
           agentSlot (run_research sid query flowOut st).st sid aid = agentSlot st sid aid) ∧
         Event.errorEvent e.msg ∈ (run_research sid query flowOut st).calls) :=
  run_research_spec sid query flowOut hs ha

/-- C3 witness: a successful flow on the fresh session ends `completed`,
with all seven slots `done`, the result stored, and `research_complete`
broadcast. -/
theorem c3_run_research_spec_witness :
    lookup "s1" exFresh.sessions = some (freshSession "q") ∧
    (∀ aid ∈ sweepIds, (lookup aid (freshSession "q").agents).isSome) ∧
    ((run_research "s1" "q" (.ok (some "report")) exFresh).res = .ok () ∧
     sessionStatus (run_research "s1" "q" (.ok (some "report")) exFresh).st "s1" =
       some .completed ∧
     (∀ aid ∈ sweepIds,
       (agentSlot (run_research "s1" "q" (.ok (some "report")) exFresh).st "s1" aid).map
         AgentStatus.status = some .done) ∧
     (∃ sess2, lookup "s1" (run_research "s1" "q" (.ok (some "report"))
          exFresh).st.sessions = some sess2 ∧ sess2.result = some "report") ∧
     Event.researchComplete "report" ∈
       (run_research "s1" "q" (.ok (some "report")) exFresh).calls) :=
  ⟨rfl, by decide,
   @c3_run_research_spec "s1" "q" (.ok (some "report")) exFresh (freshSession "q")
     rfl (by decide)⟩

/-! Section: claim C2 — Discover-stage degradation -/

/-- C2 counterexample: the claim fails on two concrete Discover runs.
With the exception escaping to the method-level handler (e.g. missing MCP
params) the `search` slot is left `running`, not marked `done`; and with
a `crew.kickoff` exception caught internally the returned dict carries no
error marker. -/
theorem c2_discover_counterexample :
    (agentSlot (collect_urls (.outerRaise ⟨"RuntimeError", "MCP params missing"⟩)
        (some "s1") exFresh).st "s1" "search").map AgentStatus.status =
      some .running ∧
    AgentState.running ≠ AgentState.done ∧
    (collect_urls (.kickoffRaise ⟨"RuntimeError", "crew failed"⟩) (some "s1") exFresh).res =
      .ok ⟨URLBuckets.dump {}, none⟩ := by
  refine ⟨rfl, by simp, rfl⟩

/-- C2 (amended): Discover never propagates an exception and always
returns a buckets dict, advancing to Extract unconditionally.  On an
exception that escapes to the method-level handler it substitutes the
all-empty URLBuckets plus an error marker but leaves the `search` slot
`running` (not `done`).  On a `crew.kickoff` exception caught by the
inner handler it substitutes the all-empty URLBuckets with no error
marker and marks `search` `done`.  On a kickoff result — well-typed or
unparseable — it returns the coerced buckets and marks `search` `done`. -/
theorem c2_collect_urls_degrades (oracle : DiscoverOutcome) (s : String) {st : SMState}
    {sess : Session} {ag : AgentStatus}
    (hs : lookup s st.sessions = some sess)
    (ha : lookup "search" sess.agents = some ag) :
    (∃ v, (collect_urls oracle (some s) st).res = .ok v) ∧
    (match oracle with
     | .outerRaise e =>
         (collect_urls oracle (some s) st).res = .ok ⟨URLBuckets.dump {}, some e.msg⟩ ∧
         (agentSlot (collect_urls oracle (some s) st).st s "search").map
             AgentStatus.status = some .running
     | .kickoffRaise _ =>
         (collect_urls oracle (some s) st).res = .ok ⟨URLBuckets.dump {}, none⟩ ∧
         (agentSlot (collect_urls oracle (some s) st).st s "search").map
             AgentStatus.status = some .done
     | .kickoffOk raw =>
         (collect_urls oracle (some s) st).res = .ok ⟨(coerceOut raw).dump, none⟩ ∧
         (agentSlot (collect_urls oracle (some s) st).st s "search").map
             AgentStatus.status = some .done) := by
  have hres1 : (update_agent_status s "search" AgentState.running
      (some "Searching for relevant URLs...") st).res = .ok () :=
    (update_spec_of_known _ _ hs ha).1
  have hkeep := update_preserves_known AgentState.running
    (some "Searching for relevant URLs...") hs ha
  have htr : truthy (some "Searching for relevant URLs...") = true := rfl
  cases oracle with
  | outerRaise e =>
      have heq : collect_urls (.outerRaise e) (some s) st =
          ⟨.ok ⟨URLBuckets.dump {}, some e.msg⟩,
           (update_agent_status s "search" AgentState.running
             (some "Searching for relevant URLs...") st).st,
           (update_agent_status s "search" AgentState.running
             (some "Searching for relevant URLs...") st).calls ++ [],
           (update_agent_status s "search" AgentState.running
             (some "Searching for relevant URLs...") st).sent ++ []⟩ := by
        simp only [collect_urls, maybeUpdate]
        rw [bind_ok hres1]
        simp [PyM.tryCatch, PyM.raise, PyM.pure]
      refine ⟨⟨⟨URLBuckets.dump {}, some e.msg⟩, ?_⟩, ?_, ?_⟩
      · simp only [heq]
      · simp only [heq]
      · simp only [heq]
        rw [agentSlot_eq hkeep.1 hkeep.2]
        simp [updatedAgent, htr]
  | kickoffRaise e =>
      have hs1 := hkeep.1
      have ha1 := hkeep.2
      have hres2 : (update_agent_status s "search" AgentState.done
          (some "URLs collected.")
          ((update_agent_status s "search" AgentState.running
            (some "Searching for relevant URLs...") st).st)).res = .ok () :=
        (update_spec_of_known _ _ hs1 ha1).1
      have hkeep2 := update_preserves_known AgentState.done (some "URLs collected.") hs1 ha1
      have heq : collect_urls (.kickoffRaise e) (some s) st =
          ⟨.ok ⟨URLBuckets.dump {}, none⟩,
           (update_agent_status s "search" AgentState.done (some "URLs collected.")
             ((update_agent_status s "search" AgentState.running
               (some "Searching for relevant URLs...") st).st)).st,
           (update_agent_status s "search" AgentState.running
             (some "Searching for relevant URLs...") st).calls ++
             ((update_agent_status s "search" AgentState.done (some "URLs collected.")
               ((update_agent_status s "search" AgentState.running
                 (some "Searching for relevant URLs...") st).st)).calls ++ []),
           (update_agent_status s "search" AgentState.running
             (some "Searching for relevant URLs...") st).sent ++
             ((update_agent_status s "search" AgentState.done (some "URLs collected.")
               ((update_agent_status s "search" AgentState.running
                 (some "Searching for relevant URLs...") st).st)).sent ++ [])⟩ := by
        simp only [collect_urls, maybeUpdate]
        rw [bind_ok hres1]
        have hbody : (PyM.bind (update_agent_status s "search" AgentState.done
            (some "URLs collected."))
            (fun _ => PyM.pure (⟨URLBuckets.dump {}, none⟩ : CollectOut))
            ((update_agent_status s "search" AgentState.running
              (some "Searching for relevant URLs...") st).st)).res =
            .ok ⟨URLBuckets.dump {}, none⟩ := by
          rw [bind_ok hres2]
          rfl
        rw [tryCatch_ok hbody, bind_ok hres2]
        simp [PyM.pure]
      refine ⟨⟨⟨URLBuckets.dump {}, none⟩, ?_⟩, ?_, ?_⟩
      · simp only [heq]
      · simp only [heq]
      · simp only [heq]
        rw [agentSlot_eq hkeep2.1 hkeep2.2]
        simp [updatedAgent, show truthy (some "URLs collected.") = true from rfl]
  | kickoffOk raw =>
      have hs1 := hkeep.1
      have ha1 := hkeep.2
      have hres2 : (update_agent_status s "search" AgentState.done
          (some "URLs collected.")
          ((update_agent_status s "search" AgentState.running
            (some "Searching for relevant URLs...") st).st)).res = .ok () :=
        (update_spec_of_known _ _ hs1 ha1).1
      have hkeep2 := update_preserves_known AgentState.done (some "URLs collected.") hs1 ha1
      have hbody : (PyM.bind (update_agent_status s "search" AgentState.done
          (some "URLs collected."))
          (fun _ => PyM.pure (⟨(coerceOut raw).dump, none⟩ : CollectOut))
          ((update_agent_status s "search" AgentState.running
            (some "Searching for relevant URLs...") st).st)).res =
          .ok ⟨(coerceOut raw).dump, none⟩ := by
        rw [bind_ok hres2]
        rfl
      have heq : (collect_urls (.kickoffOk raw) (some s) st).res =
            .ok ⟨(coerceOut raw).dump, none⟩ ∧
          (collect_urls (.kickoffOk raw) (some s) st).st =
            (update_agent_status s "search" AgentState.done (some "URLs collected.")
              ((update_agent_status s "search" AgentState.running
                (some "Searching for relevant URLs...") st).st)).st := by
        simp only [collect_urls, maybeUpdate]
        rw [bind_ok hres1, tryCatch_ok hbody, bind_ok hres2]
        simp [PyM.pure]
      refine ⟨⟨⟨(coerceOut raw).dump, none⟩, heq.1⟩, heq.1, ?_⟩
      rw [heq.2, agentSlot_eq hkeep2.1 hkeep2.2]
      simp [updatedAgent, show truthy (some "URLs collected.") = true from rfl]

/-- C2 witness: a successful Discover run on the fresh session — the
buckets pass through and `search` ends `done`. -/
theorem c2_collect_urls_degrades_witness :
    lookup "s1" exFresh.sessions = some (freshSession "q") ∧
    lookup "search" (freshSession "q").agents = some ⟨.waiting, "search", none⟩ ∧
    ((∃ v, (collect_urls (.kickoffOk .otherShape) (some "s1") exFresh).res = .ok v) ∧
     (collect_urls (.kickoffOk .otherShape) (some "s1") exFresh).res =
        .ok ⟨(coerceOut .otherShape).dump, none⟩ ∧
     (agentSlot (collect_urls (.kickoffOk .otherShape) (some "s1") exFresh).st
         "s1" "search").map AgentStatus.status = some .done) :=
  ⟨rfl, rfl,
   @c2_collect_urls_degrades (.kickoffOk .otherShape) "s1" exFresh (freshSession "q")
     ⟨.waiting, "search", none⟩ rfl rfl⟩

/-! Section: claim C9 — message overwrite policy -/

/-- C9 counterexample: with `message = None` the stored message is *not*
overwritten — after `update_agent_status "s1" "search" done None` on a
slot holding `"old note"`, the slot still holds `"old note"`, not `None`
as the claim states. -/
theorem c9_message_none_counterexample :
    agentSlot (update_agent_status "s1" "search" .done none exMsgState).st "s1" "search" =
      some ⟨.done, "search", some "old note"⟩ ∧
    (some "old note" : Option String) ≠ none := by
  exact ⟨rfl, by simp⟩

/-- C9 (amended): a truthy (non-`None`, non-empty) message overwrites the
slot's stored message; a `None` (or empty) message leaves the previous
stored message in place; the status is always rewritten. -/
theorem c9_update_message_policy (sid aid : String) (status : AgentState)
    (message : Option String) {st : SMState} {sess : Session} {ag : AgentStatus}
    (hs : lookup sid st.sessions = some sess)
    (ha : lookup aid sess.agents = some ag) :
    agentSlot (update_agent_status sid aid status message st).st sid aid =
      some { ag with status := status,
                     message := if truthy message then message else ag.message } := by
  rw [update_agentSlot_self hs ha]
  by_cases hm : truthy message = true <;> simp [updatedAgent, hm]

/-- C9 witness: a truthy message overwrites, evaluated on `exMsgState`. -/
theorem c9_update_message_policy_witness :
    lookup "s1" exMsgState.sessions = some exMsgSession ∧
    lookup "search" exMsgSession.agents = some ⟨.running, "search", some "old note"⟩ ∧
    agentSlot (update_agent_status "s1" "search" .done (some "new") exMsgState).st
        "s1" "search" =
      some ⟨.done, "search",
        if truthy (some "new") then some "new" else some "old note"⟩ :=
  ⟨rfl, rfl,
   @c9_update_message_policy "s1" "search" .done (some "new") exMsgState exMsgSession
     ⟨.running, "search", some "old note"⟩ rfl rfl⟩

/-! Section: claim C1 — Extract fan-in arity and sentinel substitution -/

theorem bind_pure_st {α β : Type} (m : PyM α) (g : α → β) (st : SMState) :
    (PyM.bind m (fun a => PyM.pure (g a)) st).st = (m st).st := by
  simp only [PyM.bind]
  cases h : (m st).res <;> simp [h, PyM.pure]

theorem bind_pure_calls {α β : Type} (m : PyM α) (g : α → β) (st : SMState) :
    (PyM.bind m (fun a => PyM.pure (g a)) st).calls = (m st).calls := by
  simp only [PyM.bind]
  cases h : (m st).res <;> simp [h, PyM.pure]

/-- An executor behaviour that fails every branch after the slot was
marked running. -/
def exOracleFail : String → BranchOutcome := fun _ => .failLate ⟨"RuntimeError", "boom"⟩

/-- An executor behaviour that succeeds on every branch with one fixed
record. -/
def exOracleOk : String → BranchOutcome :=
  fun _ => .success ⟨"web", "http://a", "facts", []⟩

/-- C1 counterexample: a dispatched branch that fails yields the sentinel
record, but its agent slot is *not* marked `error` — it stays `running`
from the update made before the crash.  The claim's "its agent slot is
marked error" is false on this input. -/
theorem c1_failed_branch_slot_not_error :
    (dispatch_to_specialists exOracleFail (some "s1") [("web", ["http://a"])] exFresh).res =
      .ok [sentinel "web" ⟨"RuntimeError", "boom"⟩] ∧
    (agentSlot (dispatch_to_specialists exOracleFail (some "s1")
        [("web", ["http://a"])] exFresh).st "s1" "web").map AgentStatus.status =
      some .running ∧
    AgentState.running ≠ AgentState.error :=
  ⟨rfl, rfl, by simp⟩

/-- C1 (amended): the fan-in result list has exactly one record per
platform with a non-empty URL sequence — empty platforms contribute
nothing and a failed branch is replaced by its sentinel record with url
`https://invalid.local` — but no slot is ever set to `error` during
Extract: the stage emits only `running` and `done` updates, so a failed
branch's slot keeps the last state it reached. -/
theorem c1_dispatch_fanin (oracle : String → BranchOutcome) (sid : Option String)
    (buckets : List (String × List String)) (st : SMState)
    (h : ∀ pb ∈ buckets, slotReady st sid pb.1) :
    (dispatch_to_specialists oracle sid buckets st).res =
      .ok (fanIn (buckets.map Prod.fst) (branchOutcomes oracle buckets)) ∧
    (fanIn (buckets.map Prod.fst) (branchOutcomes oracle buckets)).length =
      (buckets.filter fun pb => !pb.2.isEmpty).length ∧
    (∀ p urls e, (p, urls) ∈ buckets → urls ≠ [] →
      (oracle p = .failEarly e ∨ oracle p = .failLate e) →
      sentinel p e ∈ fanIn (buckets.map Prod.fst) (branchOutcomes oracle buckets)) ∧
    (∀ p e, (sentinel p e).url = "https://invalid.local") ∧
    (∀ aid s m,
      Event.agentUpdate aid s m ∈ (dispatch_to_specialists oracle sid buckets st).calls →
      s ≠ AgentState.error) := by
  obtain ⟨hframe, hcalls, hpres, hres⟩ := gather_spec oracle sid buckets st
  refine ⟨?_, fanIn_length oracle buckets, fanIn_sentinel_mem oracle buckets,
    fun _ _ => rfl, ?_⟩
  · simp only [dispatch_to_specialists]
    rw [bind_ok (hres h)]
    rfl
  · intro aid s m hmem
    simp only [dispatch_to_specialists] at hmem
    rw [bind_pure_calls] at hmem
    obtain ⟨q, s2, m2, heq, hsm, _, _, _⟩ := hcalls _ hmem
    injection heq with h1 h2 h3
    rcases hsm with h4 | h4 <;> rw [h2, h4] <;> simp

/-- C1 witness: two buckets, one empty — exactly one record comes back
and only running/done updates were emitted. -/
theorem c1_dispatch_fanin_witness :
    (∀ pb ∈ [("web", ["http://a"]), ("x", ([] : List String))],
      slotReady exFresh (some "s1") pb.1) ∧
    (dispatch_to_specialists exOracleOk (some "s1")
        [("web", ["http://a"]), ("x", [])] exFresh).res =
      .ok (fanIn (["web", "x"])
        (branchOutcomes exOracleOk [("web", ["http://a"]), ("x", [])])) ∧
    (fanIn (["web", "x"])
        (branchOutcomes exOracleOk [("web", ["http://a"]), ("x", [])])).length = 1 := by
  have h : ∀ pb ∈ [("web", ["http://a"]), ("x", ([] : List String))],
      slotReady exFresh (some "s1") pb.1 := by
    intro pb hpb
    rcases List.mem_cons.mp hpb with h1 | h1
    · subst h1
      exact rfl
    · rcases List.mem_cons.mp h1 with h2 | h2
      · subst h2
        exact rfl
      · simp at h2
  exact ⟨h,
    (c1_dispatch_fanin exOracleOk (some "s1") [("web", ["http://a"]), ("x", [])] exFresh h).1,
    rfl⟩

/-! Section: claim C5 — fan-in ordering is completion-order independent -/

/-- One event-loop write step of the gather model. -/
theorem schedGather_foldl_getElem {α : Type} (outcomes : List α) :
    ∀ (sched : List Nat) (acc : List (Option α)), acc.length = outcomes.length →
    ∀ j, (sched.foldl (fun acc i =>
        match outcomes[i]? with
        | some v => acc.set i (some v)
        | none => acc) acc)[j]? =
      if j ∈ sched ∧ j < outcomes.length then (outcomes[j]?).map some else acc[j]? := by
  intro sched
  induction sched with
  | nil =>
      intro acc hlen j
      simp
  | cons i rest ih =>
      intro acc hlen j
      have hstep : (match outcomes[i]? with
          | some v => acc.set i (some v)
          | none => acc).length = outcomes.length := by
        cases h : outcomes[i]? <;> simp [hlen]
      rw [List.foldl_cons, ih _ hstep j]
      by_cases hjl : j < outcomes.length
      · by_cases hjr : j ∈ rest
        · rw [if_pos ⟨hjr, hjl⟩, if_pos ⟨List.mem_cons_of_mem _ hjr, hjl⟩]
        · by_cases hji : j = i
          · subst hji
            rw [if_neg (fun hc => hjr hc.1), if_pos ⟨List.mem_cons_self _ _, hjl⟩]
            simp only [List.getElem?_eq_getElem hjl]
            rw [List.getElem?_set_self (show j < acc.length by rw [hlen]; exact hjl)]
            rfl
          · rw [if_neg (fun hc => hjr hc.1),
              if_neg (fun hc => (List.mem_cons.mp hc.1).elim hji hjr)]
            cases h : outcomes[i]? with
            | none => rfl
            | some v =>
                simp only [h]
                exact List.getElem?_set_ne (fun hc => hji hc.symm)
      · rw [if_neg (fun hc => hjl hc.2), if_neg (fun hc => hjl hc.2)]
        have h1 : (match outcomes[i]? with
            | some v => acc.set i (some v)
            | none => acc)[j]? = none :=
          List.getElem?_eq_none (by rw [hstep]; omega)
        have h2 : acc[j]? = none := List.getElem?_eq_none (by rw [hlen]; omega)
        rw [h1, h2]

/-- With a full completion permutation, the event loop's slot array is
exactly the submission-ordered outcome list. -/
theorem schedGather_of_perm {α : Type} (outcomes : List α) (sched : List Nat)
    (h : sched.Perm (List.range outcomes.length)) :
    schedGather outcomes sched = outcomes.map some := by
  apply List.ext_getElem?
  intro j
  unfold schedGather
  rw [schedGather_foldl_getElem outcomes sched (List.replicate outcomes.length none)
    (List.length_replicate _ _) j]
  have hmem : j ∈ sched ↔ j < outcomes.length := by
    rw [h.mem_iff, List.mem_range]
  by_cases hj : j < outcomes.length
  · rw [if_pos ⟨hmem.mpr hj, hj⟩, List.getElem?_map]
  · rw [if_neg (fun hc => hj hc.2), List.getElem?_replicate,
      if_neg hj, List.getElem?_map]
    have : outcomes[j]? = none := List.getElem?_eq_none (by omega)
    rw [this]
    rfl

/-- C5: for a fixed assignment of per-branch outcomes, the Extract fan-in
result list is identical whatever order the branches complete in: every
full completion schedule yields the submission-ordered (platform-key)
list, so any two schedules agree. -/
theorem c5_dispatch_schedule_invariant (oracle : String → BranchOutcome)
    (buckets : List (String × List String)) (sched1 sched2 : List Nat)
    (h1 : sched1.Perm (List.range buckets.length))
    (h2 : sched2.Perm (List.range buckets.length)) :
    dispatchResultsSched oracle buckets sched1 =
      fanIn (buckets.map Prod.fst) (branchOutcomes oracle buckets) ∧
    dispatchResultsSched oracle buckets sched1 =
      dispatchResultsSched oracle buckets sched2 := by
  have hlen : (branchOutcomes oracle buckets).length = buckets.length := by
    simp [branchOutcomes]
  have key : ∀ sched : List Nat, sched.Perm (List.range buckets.length) →
      dispatchResultsSched oracle buckets sched =
        fanIn (buckets.map Prod.fst) (branchOutcomes oracle buckets) := by
    intro sched hp
    unfold dispatchResultsSched
    rw [schedGather_of_perm _ _ (by rw [hlen]; exact hp)]
    have hid : ∀ l : List (Except PyErr (List SpecialistOutput)),
        (l.map some).map (fun o => o.getD (.ok [])) = l := by
      intro l
      induction l with
      | nil => rfl
      | cons a t iht => simp [iht]
    rw [hid]
  exact ⟨key sched1 h1, (key sched1 h1).trans (key sched2 h2).symm⟩

/-- C5 witness: two branches finishing in either order produce the same
result list. -/
theorem c5_dispatch_schedule_invariant_witness :
    ([1, 0] : List Nat).Perm (List.range 2) ∧
    ([0, 1] : List Nat).Perm (List.range 2) ∧
    dispatchResultsSched exOracleOk [("web", ["u"]), ("x", ["v"])] [1, 0] =
      dispatchResultsSched exOracleOk [("web", ["u"]), ("x", ["v"])] [0, 1] :=
  ⟨by decide, by decide,
   (c5_dispatch_schedule_invariant exOracleOk [("web", ["u"]), ("x", ["v"])] [1, 0] [0, 1]
     (by decide) (by decide)).2⟩

/-! Section: claim C6 — get_session is not a read-only snapshot -/

/-- No sequence of registry API calls can move an existing session's
status away from `pending`: `create_session` only writes fresh `pending`
records, `update_agent_status` rewrites only the agents map, and the
channel operations never touch `sessions`. -/
theorem applyOps_status_pending (sid : String) :
    ∀ (ops : List RegOp) (st : SMState),
    (∀ s, lookup sid st.sessions = some s → s.status = .pending) →
    ∀ s2, lookup sid (applyOps st ops).sessions = some s2 → s2.status = .pending := by
  intro ops
  induction ops with
  | nil =>
      intro st h s2 h2
      exact h s2 h2
  | cons op rest ih =>
      intro st h s2 h2
      have hstep : ∀ s3, lookup sid (applyOp st op).sessions = some s3 →
          s3.status = .pending := by
        intro s3 h3
        cases op with
        | createOp sid2 q =>
            simp only [applyOp, create_session] at h3
            by_cases hcase : sid2 = sid
            · subst hcase
              rw [lookup_dictSet_self] at h3
              injection h3 with h4
              rw [← h4]
              rfl
            · rw [lookup_dictSet_ne sid2 sid _ _ (fun hc => hcase hc.symm)] at h3
              exact h s3 h3
        | updateOp sid2 aid stt m =>
            simp only [applyOp] at h3
            have hss := @update_sessionStatus st sid2 aid stt m sid
            have h4 : sessionStatus st sid = some s3.status := by
              rw [← hss]
              simp [sessionStatus, h3]
            cases hl : lookup sid st.sessions with
            | none => simp [sessionStatus, hl] at h4
            | some s4 =>
                have h5 : s4.status = s3.status := by
                  simpa [sessionStatus, hl] using h4
                exact h5 ▸ h s4 hl
        | broadcastOp sid2 ev =>
            simp only [applyOp] at h3
            rw [(broadcast_spec sid2 ev st).2.1] at h3
            exact h s3 h3
        | registerOp sid2 ch =>
            simp only [applyOp, register_websocket] at h3
            exact h s3 h3
        | unregisterOp sid2 =>
            simp only [applyOp, unregister_websocket] at h3
            by_cases hws : (lookup sid2 st.websockets).isSome
            · rw [if_pos hws] at h3
              exact h s3 h3
            · rw [if_neg hws] at h3
              exact h s3 h3
      exact ih (applyOp st op) hstep s2 h2

/-- C6 counterexample: the ownership discipline fails.  Starting from a
fresh `pending` session, `run_research` leaves the registry in a state
(status `error`, written through the reference `get_session` returned)
that no sequence of registry API calls can produce, so `get_session` is
not a read-only snapshot and not all mutation goes through the API. -/
theorem c6_get_session_not_snapshot : ¬ registryOwnsAllMutation := by
  intro hcl
  obtain ⟨ops, hops⟩ := hcl exFresh "s1" "q" (.error ⟨"E", "boom"⟩)
  have hinit : ∀ s, lookup "s1" exFresh.sessions = some s → s.status = .pending := by
    intro s h
    rw [show lookup "s1" exFresh.sessions = some (freshSession "q") from rfl] at h
    injection h with h2
    rw [← h2]
    rfl
  have hinv := applyOps_status_pending "s1" ops exFresh hinit
  have hfin : (lookup "s1" (run_research "s1" "q" (.error ⟨"E", "boom"⟩)
      exFresh).st.sessions).map Session.status = some .error := rfl
  cases hl : lookup "s1" (run_research "s1" "q" (.error ⟨"E", "boom"⟩)
      exFresh).st.sessions with
  | none =>
      rw [hl] at hfin
      exact Option.noConfusion hfin
  | some s2 =>
      have hstat : s2.status = .error := by
        rw [hl] at hfin
        simpa using hfin
      have hpend : s2.status = .pending := hinv s2 (by rw [hops]; exact hl)
      rw [hstat] at hpend
      exact SessionStatus.noConfusion hpend

/-- C6 (amended): `get_session` hands back a live reference, not a
read-only snapshot: `run_research` writes the session's status (and
result) directly through that reference, so from any state holding a
fresh `pending` session the registry state after `run_research` is not
reachable by registry API calls alone. -/
theorem c6_run_research_mutates_directly (sid query : String) (e : PyErr) {st : SMState}
    {sess : Session}
    (hs : lookup sid st.sessions = some sess)
    (hp : sess.status = .pending)
    (ha : ∀ aid ∈ sweepIds, (lookup aid sess.agents).isSome) :
    ¬ RegReachable st (run_research sid query (.error e) st).st := by
  rintro ⟨ops, hops⟩
  have hspec := run_research_spec sid query (.error e) hs ha
  have hstat := hspec.2.1
  cases hl : lookup sid (run_research sid query (.error e) st).st.sessions with
  | none => simp [sessionStatus, hl] at hstat
  | some s2 =>
      have h1 : s2.status = .error := by
        simpa [sessionStatus, hl] using hstat
      have hinit : ∀ s, lookup sid st.sessions = some s → s.status = .pending := by
        intro s h
        rw [hs] at h
        injection h with h3
        rw [← h3]
        exact hp
      have h2 : s2.status = .pending :=
        applyOps_status_pending sid ops st hinit s2 (by rw [hops]; exact hl)
      rw [h1] at h2
      exact SessionStatus.noConfusion h2

/-- C6 witness: the fresh session, with the flow failing. -/
theorem c6_run_research_mutates_directly_witness :
    lookup "s1" exFresh.sessions = some (freshSession "q") ∧
    (freshSession "q").status = .pending ∧
    (∀ aid ∈ sweepIds, (lookup aid (freshSession "q").agents).isSome) ∧
    ¬ RegReachable exFresh (run_research "s1" "q" (.error ⟨"E", "boom"⟩) exFresh).st :=
  ⟨rfl, rfl, by decide,
   @c6_run_research_mutates_directly "s1" "q" ⟨"E", "boom"⟩ exFresh (freshSession "q")
     rfl rfl (by decide)⟩

/-! Section: claim C8 — empty-bucket platforms are never touched -/

/-- C8: a platform whose every bucket entry is empty gets no branch work:
no `agent_update` for it is ever passed to broadcast during Extract, and
its agent slot (status and message alike) is bit-for-bit unchanged in
every session. -/
theorem c8_empty_platform_untouched (oracle : String → BranchOutcome) (sid : Option String)
    (buckets : List (String × List String)) (st : SMState) (p : String)
    (h : ∀ urls, (p, urls) ∈ buckets → urls = []) :
    (∀ s m, Event.agentUpdate p s m ∉
      (dispatch_to_specialists oracle sid buckets st).calls) ∧
    (∀ sid2, agentSlot (dispatch_to_specialists oracle sid buckets st).st sid2 p =
      agentSlot st sid2 p) := by
  obtain ⟨hframe, hcalls, hpres, hres⟩ := gather_spec oracle sid buckets st
  constructor
  · intro s m hmem
    simp only [dispatch_to_specialists] at hmem
    rw [bind_pure_calls] at hmem
    obtain ⟨q, s2, m2, heq, _, u, hu, hune⟩ := hcalls _ hmem
    injection heq with h1 h2 h3
    subst h1
    exact hune (h u hu)
  · intro sid2
    simp only [dispatch_to_specialists]
    rw [bind_pure_st]
    exact hframe sid2 p h

/-- C8 witness: the empty `x` bucket — its slot survives the whole stage
untouched while `web` is processed. -/
theorem c8_empty_platform_untouched_witness :
    (∀ urls, ("x", urls) ∈ [("web", ["http://a"]), ("x", ([] : List String))] → urls = []) ∧
    Event.agentUpdate "x" .running none ∉
      (dispatch_to_specialists exOracleOk (some "s1")
        [("web", ["http://a"]), ("x", [])] exFresh).calls ∧
    agentSlot (dispatch_to_specialists exOracleOk (some "s1")
        [("web", ["http://a"]), ("x", [])] exFresh).st "s1" "x" =
      agentSlot exFresh "s1" "x" := by
  have h : ∀ urls, ("x", urls) ∈ [("web", ["http://a"]), ("x", ([] : List String))] →
      urls = [] := by
    intro urls hmem
    rcases List.mem_cons.mp hmem with h1 | h1
    · have h2 := congrArg Prod.fst h1
      simp at h2
    · rcases List.mem_cons.mp h1 with h2 | h2
      · exact congrArg Prod.snd h2
      · simp at h2
  exact ⟨h,
    (c8_empty_platform_untouched exOracleOk (some "s1")
      [("web", ["http://a"]), ("x", [])] exFresh "x" h).1 .running none,
    (c8_empty_platform_untouched exOracleOk (some "s1")
      [("web", ["http://a"]), ("x", [])] exFresh "x" h).2 "s1"⟩

end MDR
